import Mathlib

/-!
Verification of the Bezier-Playground editing engine against its
natural-language specification.

The development shallowly embeds the TypeScript sources:

* `src/history.ts` (embedded in `CollaborationManager.ts` lines 751-1387):
  the command family (`AddPointCommand` .. `RemoteStateUpdateCommand`) and
  the branching `HistoryManager`.
* `src/collaboration/SharedHistoryManager.ts`: command (de)serialization
  and state reconstruction by replay.
* `src/collaboration/CollaborationManager.ts` (second, shared-history
  variant): collaborative `undo`/`redo`/`canUndo`/`canRedo`.
* `src/managers/CurveManager.ts`: the curve store.
* `src/fileUtils.ts` (`src/unnamed/part_010`): JSON validation helpers.
* `src/managers/StateManager.ts` (embedded in `NotificationManager.ts`):
  the coordinator, in both its delegating and its refusing variant.

JavaScript arrays become `List`, objects used as string-keyed maps become
association lists, `null`/`undefined` become `Option`, and a thrown
exception becomes `Option.none` (or a dedicated `crash` constructor) at
the point where the original code throws.  Point coordinates are embedded
as integers: no claim under study depends on non-integer or non-finite
coordinates, and all concrete scenarios in the specification use integer
coordinates.  Wall-clock timestamps (`Date.now()`) and the randomly drawn
uuid strings are treated as external inputs: operations that consume them
take them as explicit arguments or omit them when no claim mentions them.
-/

namespace Bezier

/-- A control point, `{x, y}` in `src/types.ts`. -/
structure Point where
  x : Int
  y : Int
deriving DecidableEq, Repr

/-- A curve, `BezierCurve` in `src/types.ts`: id, ordered points, color. -/
structure Curve where
  id : String
  points : List Point
  color : String
deriving DecidableEq, Repr

/-- The state commands operate on, `AppState` in `history.ts`. -/
structure AppState where
  curves : List Curve
deriving DecidableEq, Repr

/-! ### JavaScript array and operator helpers

`List` counterparts of the exact `Array.prototype.splice` behaviour the
commands rely on, including the clamping JavaScript performs when the
start index is at or beyond the array length. -/

/-- `xs.splice(i, 1)`: remove the element at `i`; for `i ≥ xs.length`
JavaScript clamps the start index and removes nothing. -/
def removeAt : List α → Nat → List α
  | [], _ => []
  | _ :: xs, 0 => xs
  | x :: xs, i + 1 => x :: removeAt xs i

/-- `xs.splice(i, 0, p)`: insert `p` at `i`; for `i ≥ xs.length`
JavaScript clamps the start index and appends at the end. -/
def insertClamped : List α → Nat → α → List α
  | xs, 0, p => p :: xs
  | [], _ + 1, p => [p]
  | x :: xs, i + 1, p => x :: insertClamped xs i p

/-- Apply `f` to the first element satisfying `p`, leaving the rest
unchanged: the effect of mutating the result of `Array.prototype.find`. -/
def updateFirst (p : α → Bool) (f : α → α) : List α → List α
  | [] => []
  | x :: xs => if p x then f x :: xs else x :: updateFirst p f xs

/-- Remove the first element satisfying `p`, if any: the effect of
`findIndex` followed by `splice(index, 1)`. -/
def eraseFirst (p : α → Bool) : List α → List α
  | [] => []
  | x :: xs => if p x then xs else x :: eraseFirst p xs

/-- The JavaScript idiom `s || null` applied to a nullable string: both
`null` and the empty string collapse to `null`. -/
def jsOrNull : Option String → Option String
  | none => none
  | some s => if s = "" then none else some s

/-! ### The command family (`history.ts`)

One constructor per concrete `Command` class.  `removeCurve` stores the
deep-copied curve and its index (fields `curveData` / `curveIndex` in the
source); `loadCurves` stores the deep-copied old curves.  Deep copies are
the identity in this value-level embedding. -/

/-- The closed command family of `history.ts`. -/
inductive Command where
  | addPoint (curveId : String) (point : Point)
  | removePoint (curveId : String) (index : Nat) (point : Point)
  | movePoint (curveId : String) (index : Nat) (oldPoint newPoint : Point)
  | addCurve (curve : Curve)
  | removeCurve (curveData : Curve) (curveIndex : Nat)
  | loadCurves (newCurves oldCurves : List Curve)
  | remoteStateUpdate (newCurves : List Curve)
deriving DecidableEq, Repr

namespace Command

/-- `execute(state)` of each command class, translated clause by clause. -/
def execute : Command → AppState → AppState
  | addPoint cid p, s =>
      ⟨updateFirst (fun c => c.id == cid)
        (fun c => { c with points := c.points ++ [p] }) s.curves⟩
  | removePoint cid i _, s =>
      ⟨updateFirst (fun c => c.id == cid)
        (fun c => { c with points := removeAt c.points i }) s.curves⟩
  | movePoint cid i _ np, s =>
      ⟨updateFirst (fun c => c.id == cid)
        (fun c => if i < c.points.length then { c with points := c.points.set i np } else c)
        s.curves⟩
  | addCurve cu, s =>
      ⟨s.curves ++ [{ id := cu.id, points := [], color := cu.color }]⟩
  | removeCurve _ i, s => ⟨removeAt s.curves i⟩
  | loadCurves newCs _, s => ⟨(fun _ => newCs) s.curves⟩
  | remoteStateUpdate newCs, s => ⟨(fun _ => newCs) s.curves⟩

/-- `undo(state)` of each command class.  `RemoteStateUpdateCommand.undo`
throws (`Cannot undo remote command`), embedded as `none`. -/
def undo? : Command → AppState → Option AppState
  | addPoint cid _, s =>
      some ⟨updateFirst (fun c => c.id == cid)
        (fun c => if c.points.isEmpty then c else { c with points := c.points.dropLast })
        s.curves⟩
  | removePoint cid i p, s =>
      some ⟨updateFirst (fun c => c.id == cid)
        (fun c => { c with points := insertClamped c.points i p }) s.curves⟩
  | movePoint cid i op _, s =>
      some ⟨updateFirst (fun c => c.id == cid)
        (fun c => if i < c.points.length then { c with points := c.points.set i op } else c)
        s.curves⟩
  | addCurve cu, s => some ⟨eraseFirst (fun c => c.id == cu.id) s.curves⟩
  | removeCurve cu i, s => some ⟨insertClamped s.curves i cu⟩
  | loadCurves _ oldCs, s => some ⟨(fun _ => oldCs) s.curves⟩
  | remoteStateUpdate _, _ => none

/-- `getAffectedCurveId()` of each command class.  For the two bulk
commands the source reads `newCurves[0]?.id || null`. -/
def getAffectedCurveId : Command → Option String
  | addPoint cid _ => some cid
  | removePoint cid _ _ => some cid
  | movePoint cid _ _ _ => some cid
  | addCurve cu => some cu.id
  | removeCurve cu _ => some cu.id
  | loadCurves newCs _ => jsOrNull ((newCs.head?).map Curve.id)
  | remoteStateUpdate newCs => jsOrNull ((newCs.head?).map Curve.id)

end Command

/-- Data-consistency of a command with the state it is executed on: these
are exactly the calling conventions the specification states for each
constructor (the caller passes the value actually removed, the recorded
old point or old curves are the current ones, the added curve id is
fresh).  `remoteStateUpdate` is excepted from the round-trip claim. -/
def undoConsistent : Command → AppState → Bool
  | .addPoint _ _, _ => true
  | .removePoint cid i p, s =>
      match s.curves.find? (fun c => c.id == cid) with
      | none => true
      | some cu => decide (i < cu.points.length) && (cu.points[i]? == some p)
  | .movePoint cid i op _, s =>
      match s.curves.find? (fun c => c.id == cid) with
      | none => true
      | some cu => !(decide (i < cu.points.length)) || (cu.points[i]? == some op)
  | .addCurve cu, s => s.curves.all (fun c => !(c.id == cu.id))
  | .removeCurve cu i, s => decide (i < s.curves.length) && (s.curves[i]? == some cu)
  | .loadCurves _ oldCs, s => oldCs == s.curves
  | .remoteStateUpdate _, _ => false

/-! ### List lemmas for the round-trip analysis -/

theorem updateFirst_updateFirst (p : α → Bool) (f g : α → α)
    (hpres : ∀ x, p (g x) = p x) (xs : List α) :
    updateFirst p f (updateFirst p g xs) = updateFirst p (fun x => f (g x)) xs := by
  induction xs with
  | nil => rfl
  | cons a l ih =>
    by_cases hpa : p a
    · simp [updateFirst, hpa, hpres]
    · simp [updateFirst, hpa, ih]

theorem updateFirst_of_find (p : α → Bool) (f : α → α) (xs : List α)
    (hx : ∀ x, xs.find? p = some x → f x = x) :
    updateFirst p f xs = xs := by
  induction xs with
  | nil => rfl
  | cons a l ih =>
    by_cases hpa : p a
    · have := hx a (by simp [List.find?, hpa])
      simp [updateFirst, hpa, this]
    · have : ∀ x, l.find? p = some x → f x = x := by
        intro x hfind
        exact hx x (by simp [List.find?, hpa, hfind])
      simp [updateFirst, hpa, ih this]

theorem insertClamped_removeAt (xs : List α) (i : Nat) (p : α)
    (hi : i < xs.length) (hp : xs[i]? = some p) :
    insertClamped (removeAt xs i) i p = xs := by
  induction xs generalizing i with
  | nil => simp at hi
  | cons a l ih =>
    cases i with
    | zero =>
      simp [List.get?] at hp
      simp [removeAt, insertClamped, hp]
    | succ j =>
      simp at hi
      simp [List.get?] at hp
      simp [removeAt, insertClamped, ih j hi hp]

theorem set_getElem?_self (xs : List α) (i : Nat) (a : α) (h : xs[i]? = some a) :
    xs.set i a = xs := by
  induction xs generalizing i with
  | nil => simp [List.get?] at h
  | cons b l ih =>
    cases i with
    | zero => simp [List.get?] at h; simp [List.set, h]
    | succ j => simp [List.get?] at h; simp [List.set, ih j h]

theorem eraseFirst_append_singleton (p : α → Bool) (xs : List α) (y : α)
    (hxs : ∀ x ∈ xs, p x = false) (hy : p y = true) :
    eraseFirst p (xs ++ [y]) = xs := by
  induction xs with
  | nil => simp [eraseFirst, hy]
  | cons a l ih =>
    have ha : p a = false := hxs a (by simp)
    have hl : ∀ x ∈ l, p x = false := fun x hx => hxs x (by simp [hx])
    simp [eraseFirst, ha, ih hl]

/-- C1 (amended): for the six undoable command kinds, executing on a
state the command is data-consistent with and then undoing restores the
state exactly; `remoteStateUpdate` (RemoteOverwrite) is excepted. -/
theorem undo_execute_roundtrip (c : Command) (s : AppState)
    (h : undoConsistent c s = true) :
    c.undo? (c.execute s) = some s := by
  cases c with
  | addPoint cid pt =>
    simp only [Command.execute, Command.undo?, Option.some.injEq]
    congr 1
    rw [updateFirst_updateFirst _ _ _ (by intro x; rfl)]
    apply updateFirst_of_find
    intro x _
    simp
  | removePoint cid i pt =>
    simp only [undoConsistent] at h
    simp only [Command.execute, Command.undo?, Option.some.injEq]
    congr 1
    rw [updateFirst_updateFirst _ _ _ (by intro x; rfl)]
    apply updateFirst_of_find
    intro x hfind
    rw [hfind] at h
    simp only [Bool.and_eq_true, decide_eq_true_eq, beq_iff_eq] at h
    simp [insertClamped_removeAt x.points i pt h.1 h.2]
  | movePoint cid i op np =>
    simp only [undoConsistent] at h
    simp only [Command.execute, Command.undo?, Option.some.injEq]
    congr 1
    rw [updateFirst_updateFirst _ _ _
      (by intro x; by_cases hi : i < x.points.length <;> simp [hi])]
    apply updateFirst_of_find
    intro x hfind
    rw [hfind] at h
    by_cases hi : i < x.points.length
    · simp only [Bool.or_eq_true, Bool.not_eq_true', decide_eq_false_iff_not, beq_iff_eq] at h
      rcases h with h | h
      · exact absurd hi h
      · simp [hi, List.length_set, List.set_set, set_getElem?_self x.points i op h]
    · simp [hi]
  | addCurve cu =>
    simp only [undoConsistent, List.all_eq_true, Bool.not_eq_true', beq_eq_false_iff_ne,
      ne_eq] at h
    simp only [Command.execute, Command.undo?, Option.some.injEq]
    congr 1
    exact eraseFirst_append_singleton _ _ _
      (fun x hx => by simp [h x hx]) (by simp)
  | removeCurve cu i =>
    simp only [undoConsistent, Bool.and_eq_true, decide_eq_true_eq, beq_iff_eq] at h
    simp only [Command.execute, Command.undo?, Option.some.injEq]
    congr 1
    exact insertClamped_removeAt s.curves i cu h.1 h.2
  | loadCurves newCs oldCs =>
    simp only [undoConsistent, beq_iff_eq] at h
    simp [Command.execute, Command.undo?, h]
  | remoteStateUpdate newCs => simp [undoConsistent] at h

/-- Witness for `undo_execute_roundtrip`: a concrete in-range
`RemovePoint` on a one-curve store. -/
theorem undo_execute_roundtrip_witness :
    undoConsistent (.removePoint "a" 0 ⟨1, 2⟩)
      ⟨[⟨"a", [⟨1, 2⟩, ⟨3, 4⟩], "#4a9eff"⟩]⟩ = true ∧
    (Command.removePoint "a" 0 ⟨1, 2⟩).undo?
      ((Command.removePoint "a" 0 ⟨1, 2⟩).execute
        ⟨[⟨"a", [⟨1, 2⟩, ⟨3, 4⟩], "#4a9eff"⟩]⟩) =
      some ⟨[⟨"a", [⟨1, 2⟩, ⟨3, 4⟩], "#4a9eff"⟩]⟩ :=
  ⟨by decide, undo_execute_roundtrip _ _ (by decide)⟩

/-- C1 counterexample: the claim demands the round trip in particular for
a `RemovePoint` whose index is out of range; there `execute` removes
nothing but `undo` appends the carried point, so the state is not
restored. -/
theorem removePoint_out_of_range_not_roundtrip :
    (Command.removePoint "a" 5 ⟨9, 9⟩).undo?
      ((Command.removePoint "a" 5 ⟨9, 9⟩).execute ⟨[⟨"a", [⟨0, 0⟩], "#4a9eff"⟩]⟩) ≠
      some ⟨[⟨"a", [⟨0, 0⟩], "#4a9eff"⟩]⟩ := by decide

/-! ### Command serialization (`SharedHistoryManager.ts`)

`extractCommandData` reads the properties `curveId`, `point`, `index`,
`oldPoint`, `newPoint`, `curve` off the command object; properties the
concrete class does not define come back `undefined`, embedded as `none`.
`RemoveCurveCommand` stores its state under `curveData` and `curveIndex`,
so for it every extracted field is `none`.  (The fields `oldColor` and
`newColor` are also read; no command in the family defines them, so they
are always `undefined` and are omitted from the embedding.) -/

/-- The record produced by `extractCommandData`. -/
structure CommandData where
  curveId : Option String := none
  point : Option Point := none
  index : Option Nat := none
  oldPoint : Option Point := none
  newPoint : Option Point := none
  curve : Option Curve := none
deriving DecidableEq, Repr

/-- A serialized command, `SerializedCommand` in `types.ts`: a type tag
plus the extracted data. -/
structure SerializedCommand where
  type : String
  data : CommandData
deriving DecidableEq, Repr

/-- `extractCommandData(command)`: per class, the properties that actually
exist on the object.  `RemoveCurveCommand` has neither `curve` nor
`index` (its fields are `curveData` / `curveIndex`), so nothing is
extracted for it. -/
def extractCommandData : Command → CommandData
  | .addPoint cid p => { curveId := some cid, point := some p }
  | .removePoint cid i p => { curveId := some cid, index := some i, point := some p }
  | .movePoint cid i op np =>
      { curveId := some cid, index := some i, oldPoint := some op, newPoint := some np }
  | .addCurve cu => { curve := some cu }
  | .removeCurve _ _ => {}
  | .loadCurves _ _ => {}
  | .remoteStateUpdate _ => {}

/-- `serializeCommand(command)`: dispatch on the constructor name; the
default branch (`LoadCurvesCommand`, `RemoteStateUpdateCommand`) returns
`null`. -/
def serializeCommand : Command → Option SerializedCommand
  | .addPoint cid p => some ⟨"AddPoint", extractCommandData (.addPoint cid p)⟩
  | .removePoint cid i p => some ⟨"RemovePoint", extractCommandData (.removePoint cid i p)⟩
  | .movePoint cid i op np => some ⟨"MovePoint", extractCommandData (.movePoint cid i op np)⟩
  | .addCurve cu => some ⟨"AddCurve", extractCommandData (.addCurve cu)⟩
  | .removeCurve cu i => some ⟨"RemoveCurve", extractCommandData (.removeCurve cu i)⟩
  | .loadCurves _ _ => none
  | .remoteStateUpdate _ => none

/-- Outcome of `deserializeCommand`: a reconstructed command, a `null`
return (unknown or unimplemented type, skipped by `reconstructState`), or
a thrown exception. -/
inductive DeserResult where
  | ok (c : Command)
  | skip
  | crash
deriving DecidableEq, Repr

/-- `deserializeCommand(serialized)`.  For `RemoveCurve` the constructor
runs `JSON.parse(JSON.stringify(curve))`; when the payload lacks the
`curve` field that is `JSON.parse(undefined)`, a thrown `SyntaxError`,
embedded as `crash`.  For `AddCurve` a missing `curve` throws on the
first `this.curve.id` access when the command is executed inside
`reconstructState`, the sole consumer; this is embedded as `crash` at
deserialization.  Point-command payloads with missing fields build
commands whose `curveId` is `undefined`, which match no curve and act as
no-ops; since `reconstructState` is the sole consumer they are embedded
as `skip`.  None of these partial payloads is produced by
`serializeCommand` except the `RemoveCurve` one. -/
def deserializeCommand (sc : SerializedCommand) : DeserResult :=
  if sc.type = "AddPoint" then
    match sc.data.curveId, sc.data.point with
    | some cid, some p => .ok (.addPoint cid p)
    | _, _ => .skip
  else if sc.type = "RemovePoint" then
    match sc.data.curveId, sc.data.index, sc.data.point with
    | some cid, some i, some p => .ok (.removePoint cid i p)
    | _, _, _ => .skip
  else if sc.type = "MovePoint" then
    match sc.data.curveId, sc.data.index, sc.data.oldPoint, sc.data.newPoint with
    | some cid, some i, some op, some np => .ok (.movePoint cid i op np)
    | _, _, _, _ => .skip
  else if sc.type = "AddCurve" then
    match sc.data.curve with
    | some cu => .ok (.addCurve cu)
    | none => .crash
  else if sc.type = "RemoveCurve" then
    match sc.data.curve, sc.data.index with
    | some cu, some i => .ok (.removeCurve cu i)
    | _, _ => .crash
  else
    .skip

/-- C2: serializing and deserializing reproduces the original command
exactly for `AddPoint`, `RemovePoint`, `MovePoint` and `AddCurve` (hence
the same effect on every state), but for every `RemoveCurve` command the
serialized payload carries neither the curve nor the index — the fields
live under `curveData` / `curveIndex`, which `extractCommandData` never
reads — and deserialization throws instead of reproducing the command. -/
theorem serialize_deserialize_behavior :
    (∀ cid p, (serializeCommand (.addPoint cid p)).map deserializeCommand =
      some (.ok (.addPoint cid p))) ∧
    (∀ cid i p, (serializeCommand (.removePoint cid i p)).map deserializeCommand =
      some (.ok (.removePoint cid i p))) ∧
    (∀ cid i op np, (serializeCommand (.movePoint cid i op np)).map deserializeCommand =
      some (.ok (.movePoint cid i op np))) ∧
    (∀ cu, (serializeCommand (.addCurve cu)).map deserializeCommand =
      some (.ok (.addCurve cu))) ∧
    (∀ cu i, serializeCommand (.removeCurve cu i) =
      some ⟨"RemoveCurve", {}⟩ ∧
      (serializeCommand (.removeCurve cu i)).map deserializeCommand =
      some .crash) := by
  refine ⟨fun cid p => rfl, fun cid i p => rfl, fun cid i op np => rfl,
    fun cu => rfl, fun cu i => ⟨rfl, rfl⟩⟩

/-- C2, evaluated at the failing input: a concrete `RemoveCurve` command
whose own (unused) `serialize()` method would carry the curve and index,
but whose shared-history serialization loses both and then crashes on
deserialization. -/
theorem removeCurve_serialization_crashes :
    (serializeCommand (.removeCurve ⟨"a", [], "#4a9eff"⟩ 0)).map deserializeCommand =
      some .crash := by decide

/-! ### The local history tree (`HistoryManager` in `history.ts`)

`HistoryNode` objects form a tree linked by reference through `parent`
and `children`; only `executeCommand` creates nodes, always as a child of
`current`, so the structure is a rose tree and a node is identified by
its path of child indices from the root.  The embedding stores the root
tree and the path of the current node (`[]` = root).  Node timestamps
(`Date.now()`) are wall-clock metadata no claim mentions and are
omitted. -/

/-- A history node: its command (`none` only at the root), its
description string, and its ordered children. -/
inductive HTree where
  | node (command : Option Command) (descr : String) (children : List HTree)

namespace HTree

/-- The command of a node. -/
def command : HTree → Option Command
  | node c _ _ => c

/-- The description of a node. -/
def descr : HTree → String
  | node _ d _ => d

/-- The children of a node. -/
def children : HTree → List HTree
  | node _ _ ch => ch

theorem sizeOf_lt_of_mem_children {c t : HTree} (h : c ∈ t.children) :
    sizeOf c < sizeOf t := by
  cases t with
  | node cmd d ch =>
    simp only [children] at h
    have h1 := List.sizeOf_lt_of_mem h
    simp only [node.sizeOf_spec]
    omega

mutual
/-- Computable node count of a tree, used as loop fuel. -/
def size : HTree → Nat
  | .node _ _ ch => 1 + sizeL ch
/-- Computable node count of a forest. -/
def sizeL : List HTree → Nat
  | [] => 0
  | t :: ts => size t + sizeL ts
end

theorem size_le_sizeL {c : HTree} {l : List HTree} (h : c ∈ l) : c.size ≤ sizeL l := by
  induction l with
  | nil => simp at h
  | cons t ts ih =>
    rcases List.mem_cons.1 h with rfl | hmem
    · simp [sizeL]
    · have := ih hmem
      simp only [sizeL]
      omega

theorem size_pos (t : HTree) : 0 < t.size := by
  cases t with
  | node c d ch => simp [size]

theorem size_lt_of_mem_children {c t : HTree} (h : c ∈ t.children) : c.size < t.size := by
  cases t with
  | node cmd d ch =>
    simp only [children] at h
    have := size_le_sizeL h
    simp only [size]
    omega

/-- The node reached from `t` by following the child indices in `p`. -/
def get? : HTree → List Nat → Option HTree
  | t, [] => some t
  | t, i :: p =>
    match t.children[i]? with
    | some c => get? c p
    | none => none

/-- Replace the element at index `i`, leaving the list unchanged when `i`
is out of range. -/
def modifyNthL (f : α → α) : Nat → List α → List α
  | _, [] => []
  | 0, x :: xs => f x :: xs
  | i + 1, x :: xs => x :: modifyNthL f i xs

/-- Apply `f` to the node at path `p` (unchanged when `p` does not
resolve). -/
def modifyAt : HTree → List Nat → (HTree → HTree) → HTree
  | t, [], f => f t
  | node c d ch, i :: p, f => node c d (modifyNthL (fun child => modifyAt child p f) i ch)

/-- The nodes visited along path `p` below `t` (the node at each
non-empty prefix of `p`, in order). -/
def nodesAlong : HTree → List Nat → List HTree
  | _, [] => []
  | t, i :: p =>
    match t.children[i]? with
    | some c => c :: nodesAlong c p
    | none => []

/-- Height of a tree: a leaf has height 0 and every child is at least one
level below its parent. -/
def height (t : HTree) : Nat :=
  t.children.attach.foldr (fun c acc => max (height c.1 + 1) acc) 0
termination_by t
decreasing_by exact sizeOf_lt_of_mem_children c.2

theorem le_foldr_max (f : α → Nat) (l : List α) (a : α) (h : a ∈ l) :
    f a ≤ l.foldr (fun x acc => max (f x) acc) 0 := by
  induction l with
  | nil => simp at h
  | cons b bl ih =>
    rcases List.mem_cons.1 h with rfl | hmem
    · simp [List.foldr]
    · simp only [List.foldr]
      exact le_max_of_le_right (ih hmem)

theorem height_lt_of_mem_children {c t : HTree} (h : c ∈ t.children) :
    c.height < t.height := by
  have hh : t.height = t.children.attach.foldr (fun c acc => max (height c.1 + 1) acc) 0 := by
    rw [height]
  have hle := le_foldr_max (fun x : {x // x ∈ t.children} => height x.1 + 1)
    t.children.attach ⟨c, h⟩ (List.mem_attach _ _)
  simp only at hle
  omega

theorem get?_append (t : HTree) (p q : List Nat) :
    t.get? (p ++ q) = (t.get? p).bind (fun u => u.get? q) := by
  induction p generalizing t with
  | nil => simp [get?]
  | cons i p ih =>
    simp only [List.cons_append, get?]
    cases ht : t.children[i]? with
    | none => simp
    | some c => simp [ih c]

theorem modifyNthL_getElem?_self (f : α → α) (i : Nat) (l : List α) :
    (modifyNthL f i l)[i]? = (l[i]?).map f := by
  induction l generalizing i with
  | nil => simp [modifyNthL]
  | cons x xs ih =>
    cases i with
    | zero => simp [modifyNthL]
    | succ j => simp [modifyNthL, ih]

theorem modifyNthL_getElem?_ne (f : α → α) (i j : Nat) (l : List α) (h : i ≠ j) :
    (modifyNthL f i l)[j]? = l[j]? := by
  induction l generalizing i j with
  | nil => simp [modifyNthL]
  | cons x xs ih =>
    cases i with
    | zero =>
      cases j with
      | zero => exact absurd rfl h
      | succ k => simp [modifyNthL]
    | succ i =>
      cases j with
      | zero => simp [modifyNthL]
      | succ k => simp only [modifyNthL, List.getElem?_cons_succ]; exact ih i k (by omega)

theorem get?_modifyAt_self (t : HTree) (p : List Nat) (f : HTree → HTree)
    (h : (t.get? p).isSome) :
    (t.modifyAt p f).get? p = (t.get? p).map f := by
  induction p generalizing t with
  | nil => simp [get?, modifyAt]
  | cons i p ih =>
    cases t with
    | node c d ch =>
      simp only [get?, children] at h ⊢
      cases hch : ch[i]? with
      | none => simp [hch] at h
      | some u =>
        simp only [modifyAt, get?, children, modifyNthL_getElem?_self, hch, Option.map_some']
        rw [hch] at h
        exact ih u h

theorem get?_modifyAt_incomparable (t : HTree) (p q : List Nat) (f : HTree → HTree)
    (hpq : ¬ p <+: q) (hqp : ¬ q <+: p) :
    (t.modifyAt p f).get? q = t.get? q := by
  induction p generalizing t q with
  | nil => exact absurd (List.nil_prefix) hpq
  | cons i p ih =>
    cases q with
    | nil => exact absurd (List.nil_prefix) hqp
    | cons j q =>
      cases t with
      | node c d ch =>
        simp only [modifyAt, get?, children]
        by_cases hij : i = j
        · subst hij
          have hp : ¬ p <+: q := fun hc => hpq (List.cons_prefix_cons.2 ⟨rfl, hc⟩)
          have hq : ¬ q <+: p := fun hc => hqp (List.cons_prefix_cons.2 ⟨rfl, hc⟩)
          rw [modifyNthL_getElem?_self]
          cases hch : ch[i]? with
          | none => simp
          | some u => simp [ih u q hp hq]
        · rw [modifyNthL_getElem?_ne _ _ _ _ hij]

end HTree

/-- The fixed color-name map of `HistoryManager.getColorName`. -/
def getColorName (hex : String) : String :=
  if hex = "#4a9eff" then "blue"
  else if hex = "#ff4a9e" then "pink"
  else if hex = "#4aff9e" then "green"
  else if hex = "#ff9e4a" then "orange"
  else if hex = "#9e4aff" then "purple"
  else if hex = "#4afff9" then "cyan"
  else "unknown"

/-- `getCurveColorName`: color name of the curve with the given id in the
current state (`curve?.color || ''` feeds the map, so a missing curve
yields "unknown"). -/
def getCurveColorName (s : AppState) (cid : String) : String :=
  getColorName (((s.curves.find? (fun c => c.id == cid)).map Curve.color).getD "")

/-- `getCommandDescription`, dispatching on the command class. -/
def getCommandDescription (s : AppState) : Command → String
  | .addPoint cid _ => "Add point to " ++ getCurveColorName s cid
  | .removePoint cid _ _ => "Remove point from " ++ getCurveColorName s cid
  | .movePoint cid _ _ _ => "Move point in " ++ getCurveColorName s cid
  | .addCurve cu => "Create " ++ getColorName cu.color ++ " curve"
  | .removeCurve cu _ => "Delete " ++ getColorName cu.color ++ " curve"
  | .loadCurves _ _ => "Load curves from file"
  | .remoteStateUpdate _ => "Unknown action"

/-- The `HistoryManager` state: the root tree, the path of the current
node (`[]` = root), the app state, and `selectedChildIndex`. -/
structure HistoryManager where
  root : HTree
  path : List Nat
  state : AppState
  selectedChildIndex : Nat

namespace HistoryManager

/-- The current node. -/
def current? (h : HistoryManager) : Option HTree :=
  h.root.get? h.path

/-- A history state is valid when its current path resolves; this is an
invariant of the source (the `current` pointer always references a node
of the tree). -/
def Valid (h : HistoryManager) : Prop := (h.current?).isSome

/-- `executeCommand(command)`: create the new node, append it as a child
of `current` (never truncating existing children), execute the command,
move `current` to the new node, reset `selectedChildIndex`, and return
`command.getAffectedCurveId()`.  The collaboration callback only
forwards the command and state to the collaboration manager and does not
touch the tree. -/
def executeCommand (h : HistoryManager) (c : Command) : HistoryManager × Option String :=
  let newNode : HTree := .node (some c) (getCommandDescription h.state c) []
  let n := ((h.current?).map (fun t => t.children.length)).getD 0
  ({ root := h.root.modifyAt h.path
       (fun t => .node t.command t.descr (t.children ++ [newNode])),
     path := h.path ++ [n],
     state := c.execute h.state,
     selectedChildIndex := 0 }, c.getAffectedCurveId)

/-- `executeRemoteCommand(command)`: apply to state without touching the
tree. -/
def executeRemoteCommand (h : HistoryManager) (c : Command) : HistoryManager :=
  { h with state := c.execute h.state }

/-- `canUndo()` ⇔ the current node has a parent. -/
def canUndo (h : HistoryManager) : Bool := !h.path.isEmpty

/-- `canRedo()` ⇔ the current node has children. -/
def canRedo (h : HistoryManager) : Bool :=
  ((h.current?).map (fun t => !t.children.isEmpty)).getD false

/-- `undo()`: undo the current command (which may throw, `none`), move to
the parent, reset the selection, and return the parent command's affected
curve id.  When `canUndo` is false the call returns `null` and changes
nothing.  A dangling current path cannot arise in the source and is
embedded as `none`. -/
def undo (h : HistoryManager) : Option (HistoryManager × Option String) :=
  if h.path.isEmpty then some (h, none)
  else
    match h.current? with
    | none => none
    | some cur =>
      match (match cur.command with
        | some c => c.undo? h.state
        | none => some h.state) with
      | none => none
      | some s' =>
        some ({ h with
          path := h.path.dropLast
          state := s'
          selectedChildIndex := 0 },
          match h.root.get? h.path.dropLast with
          | some par =>
            match par.command with
            | some pc => pc.getAffectedCurveId
            | none => none
          | none => none)

/-- `redo()`: move to `children[min(selectedChildIndex, length - 1)]`,
execute its command (the source asserts it non-null with `!`; a null
command would throw, embedded as `none`), reset the selection.  When
`canRedo` is false the call returns `null` and changes nothing. -/
def redo (h : HistoryManager) : Option (HistoryManager × Option String) :=
  match h.current? with
  | none => none
  | some cur =>
    if cur.children.isEmpty then some (h, none)
    else
      let idx := min h.selectedChildIndex (cur.children.length - 1)
      match cur.children[idx]? with
      | none => none
      | some next =>
        match next.command with
        | none => none
        | some c =>
          some ({ h with
            path := h.path ++ [idx]
            state := c.execute h.state
            selectedChildIndex := 0 }, c.getAffectedCurveId)

/-- `isAtIntersection()` ⇔ the current node has more than one child. -/
def isAtIntersection (h : HistoryManager) : Bool :=
  ((h.current?).map (fun t => decide (1 < t.children.length))).getD false

/-- `switchToNextBranch()`: at a decision point, advance
`selectedChildIndex` cyclically without executing anything; return
`null` either way. -/
def switchToNextBranch (h : HistoryManager) : HistoryManager × Option String :=
  let n := ((h.current?).map (fun t => t.children.length)).getD 0
  if 1 < n then
    ({ h with selectedChildIndex := (h.selectedChildIndex + 1) % n }, none)
  else (h, none)

/-- `switchToPreviousBranch()`: the cyclic step backwards,
`(selectedChildIndex - 1 + length) % length` in the source. -/
def switchToPreviousBranch (h : HistoryManager) : HistoryManager × Option String :=
  let n := ((h.current?).map (fun t => t.children.length)).getD 0
  if 1 < n then
    ({ h with selectedChildIndex := (h.selectedChildIndex + n - 1) % n }, none)
  else (h, none)

end HistoryManager

/-- C3: `executeCommand` appends the new node as the last child of the
current node (all previously existing children are kept, so a sibling
branch appears when children already existed), leaves every subtree
disjoint from the current path untouched, executes the command on the
state, moves `current` to the new node, resets `selectedChildIndex` to 0,
and returns the command's affected curve id. -/
theorem executeCommand_spec (h : HistoryManager) (c : Command) (cur : HTree)
    (hcur : h.current? = some cur) :
    (h.executeCommand c).1.root.get? h.path =
      some (.node cur.command cur.descr
        (cur.children ++ [.node (some c) (getCommandDescription h.state c) []])) ∧
    (h.executeCommand c).1.path = h.path ++ [cur.children.length] ∧
    (h.executeCommand c).1.root.get? ((h.executeCommand c).1.path) =
      some (.node (some c) (getCommandDescription h.state c) []) ∧
    (h.executeCommand c).1.state = c.execute h.state ∧
    (h.executeCommand c).1.selectedChildIndex = 0 ∧
    (h.executeCommand c).2 = c.getAffectedCurveId ∧
    (∀ q, ¬ h.path <+: q → ¬ q <+: h.path →
      (h.executeCommand c).1.root.get? q = h.root.get? q) := by
  have hsome : (h.root.get? h.path).isSome := by
    rw [show h.root.get? h.path = h.current? from rfl, hcur]; rfl
  have hself := HTree.get?_modifyAt_self h.root h.path
    (fun t => .node t.command t.descr
      (t.children ++ [.node (some c) (getCommandDescription h.state c) []])) hsome
  rw [show h.root.get? h.path = h.current? from rfl, hcur] at hself
  refine ⟨?_, ?_, ?_, rfl, rfl, rfl, ?_⟩
  · simpa [HistoryManager.executeCommand] using hself
  · rw [show (h.executeCommand c).1.path =
        h.path ++ [((Option.map (fun t => t.children.length) (h.current?)).getD 0)] from rfl,
      hcur]
    rfl
  · have happ := HTree.get?_append
      ((h.executeCommand c).1.root) h.path [cur.children.length]
    have hpath : (h.executeCommand c).1.path = h.path ++ [cur.children.length] := by
      rw [show (h.executeCommand c).1.path =
          h.path ++ [((Option.map (fun t => t.children.length) (h.current?)).getD 0)] from rfl,
        hcur]
      rfl
    rw [hpath, happ]
    have hroot : (h.executeCommand c).1.root.get? h.path =
        some (.node cur.command cur.descr
          (cur.children ++ [.node (some c) (getCommandDescription h.state c) []])) := by
      simpa [HistoryManager.executeCommand] using hself
    rw [hroot]
    simp [HTree.get?, HTree.children, List.getElem?_concat_length]
  · intro q hpq hqp
    exact HTree.get?_modifyAt_incomparable h.root h.path q _ hpq hqp

/-- Witness for `executeCommand_spec`: adding a point below a fresh
root. -/
theorem executeCommand_spec_witness :
    ({ root := .node none "Initial state" [], path := [],
       state := ⟨[⟨"a", [], "#4a9eff"⟩]⟩, selectedChildIndex := 0 } :
        HistoryManager).current? = some (.node none "Initial state" []) ∧
    (({ root := .node none "Initial state" [], path := [],
        state := ⟨[⟨"a", [], "#4a9eff"⟩]⟩, selectedChildIndex := 0 } :
        HistoryManager).executeCommand (.addPoint "a" ⟨1, 2⟩)).1.state =
      ⟨[⟨"a", [⟨1, 2⟩], "#4a9eff"⟩]⟩ := by
  refine ⟨rfl, ?_⟩
  have hmain := executeCommand_spec
    { root := .node none "Initial state" [], path := [],
      state := ⟨[⟨"a", [], "#4a9eff"⟩]⟩, selectedChildIndex := 0 }
    (.addPoint "a" ⟨1, 2⟩) (.node none "Initial state" []) rfl
  exact hmain.2.2.2.1.trans rfl

/-! ### Jump and branch-switch operations of the local tree -/

/-- The loop body of `jumpToNextIntersectionOrEnd`, recursing down the
tree from the current node: stop on a node with no children, or on a node
with several children once past the first step; otherwise follow
`children[min(selectedChildIndex, length - 1)]` on the first step at a
decision point and `children[0]` afterwards, executing each traversed
command.  Returns the final state, the last affected curve id, and the
relative path of traversed child indices.  The structural fuel argument
is instantiated with the node count of the tree, which strictly dominates
the depth of the loop, so the fuel-exhausted branch is unreachable
(`jumpNextAuxF_spec` is proved for every sufficient fuel). -/
def jumpNextAuxF : Nat → HTree → Nat → Bool → AppState → Option String →
    AppState × Option String × List Nat
  | 0, _, _, _, s, last => (s, last, [])
  | fuel + 1, t, sel, isFirst, s, last =>
    if t.children.length = 0 then (s, last, [])
    else if 1 < t.children.length ∧ isFirst = false then (s, last, [])
    else
      let idx := if isFirst = true ∧ 1 < t.children.length
        then min sel (t.children.length - 1) else 0
      match t.children[idx]? with
      | none => (s, last, [])
      | some next =>
        let s' := match next.command with | some c => c.execute s | none => s
        let last' := match next.command with | some c => c.getAffectedCurveId | none => last
        let r := jumpNextAuxF fuel next sel false s' last'
        (r.1, r.2.1, idx :: r.2.2)

/-- The forward loop at its canonical (always sufficient) fuel. -/
def jumpNextAux (t : HTree) (sel : Nat) (isFirst : Bool) (s : AppState)
    (last : Option String) : AppState × Option String × List Nat :=
  jumpNextAuxF t.size t sel isFirst s last

/-- `jumpToNextIntersectionOrEnd()`: run the forward loop from the
current node, then reset `selectedChildIndex`. -/
def HistoryManager.jumpToNextIntersectionOrEnd (h : HistoryManager) :
    HistoryManager × Option String :=
  match h.current? with
  | none => (h, none)
  | some cur =>
    let r := jumpNextAux cur h.selectedChildIndex true h.state none
    ({ h with path := h.path ++ r.2.2, state := r.1, selectedChildIndex := 0 }, r.2.1)

/-- The loop body of `jumpToPreviousIntersectionOrStart`: walk upward
undoing the command of each node left (a `remoteStateUpdate` would throw,
`none`); stop on reaching the root or when the parent has several
children; each step records the parent command's affected id
(`node.parent.command?.getAffectedCurveId() || null`). -/
def jumpPrevAuxF (root : HTree) : Nat → List Nat → AppState → Option String →
    Option (List Nat × AppState × Option String)
  | _, [], s, last => some ([], s, last)
  | 0, _ :: _, _, _ => none
  | fuel + 1, p, s, last =>
    match root.get? p, root.get? p.dropLast with
    | some cur, some par =>
      match (match cur.command with | some c => c.undo? s | none => some s) with
      | none => none
      | some s' =>
        let last' := match par.command with
          | some pc => jsOrNull pc.getAffectedCurveId
          | none => none
        if 1 < par.children.length then some (p.dropLast, s', last')
        else jumpPrevAuxF root fuel p.dropLast s' last'
    | _, _ => none

/-- The backward loop at its canonical (always sufficient) fuel: the path
shrinks by one on every iteration, so `p.length` fuel never runs out. -/
def jumpPrevAux (root : HTree) (p : List Nat) (s : AppState) (last : Option String) :
    Option (List Nat × AppState × Option String) :=
  jumpPrevAuxF root p.length p s last

/-- `jumpToPreviousIntersectionOrStart()`: run the backward loop, then
reset `selectedChildIndex`. -/
def HistoryManager.jumpToPreviousIntersectionOrStart (h : HistoryManager) :
    Option (HistoryManager × Option String) :=
  match jumpPrevAux h.root h.path h.state none with
  | none => none
  | some r =>
    some ({ h with path := r.1, state := r.2.1, selectedChildIndex := 0 }, r.2.2)

/-- `findCommonAncestor`: in a tree without sharing, reference identity
of nodes is path equality, and the deepest common ancestor of two nodes
is the longest common prefix of their paths. -/
def commonPrefix : List Nat → List Nat → List Nat
  | i :: p, j :: q => if i = j then i :: commonPrefix p q else []
  | _, _ => []

/-- `switchToBranch(targetNode)`: undo up to the common ancestor, then
execute down to the target, reset the selection, and return the target
command's affected id (`targetNode.command?.getAffectedCurveId() ||
null`).  An undo that throws propagates (`none`). -/
def HistoryManager.switchToBranch (h : HistoryManager) (target : List Nat) :
    Option (HistoryManager × Option String) :=
  let anc := commonPrefix h.path target
  let undoNodes := ((HTree.nodesAlong h.root h.path).drop anc.length).reverse
  match undoNodes.foldlM (fun s t =>
      match t.command with | some c => c.undo? s | none => some s) h.state with
  | none => none
  | some s1 =>
    let redoNodes := (HTree.nodesAlong h.root target).drop anc.length
    let s2 := redoNodes.foldl (fun s t =>
      match t.command with | some c => c.execute s | none => s) s1
    let ret := match h.root.get? target with
      | some tn =>
        match tn.command with
        | some c => jsOrNull c.getAffectedCurveId
        | none => none
      | none => none
    some ({ h with path := target, state := s2, selectedChildIndex := 0 }, ret)

/-- The state obtained by executing the commands of the nodes along a
relative path, in order (nodes without a command are skipped, as in the
source loop). -/
def execAlong (t : HTree) (rel : List Nat) (s : AppState) : AppState :=
  (HTree.nodesAlong t rel).foldl
    (fun s u => match u.command with | some c => c.execute s | none => s) s

theorem sizeOf_htree_pos (t : HTree) : 0 < sizeOf t := by
  cases t with
  | node c d ch => simp only [HTree.node.sizeOf_spec]; omega

theorem jumpNextAuxF_spec :
    ∀ (n : Nat) (t : HTree), t.size ≤ n →
    ∀ (sel : Nat) (b : Bool) (s : AppState) (last : Option String),
    (jumpNextAuxF n t sel b s last).2.2.length ≤ t.height ∧
    (∃ stop, t.get? (jumpNextAuxF n t sel b s last).2.2 = some stop ∧
      (stop.children.length = 0 ∨ 1 < stop.children.length)) ∧
    (jumpNextAuxF n t sel b s last).1 =
      execAlong t (jumpNextAuxF n t sel b s last).2.2 s ∧
    ((jumpNextAuxF n t sel b s last).2.2.head? = none ∨
      (jumpNextAuxF n t sel b s last).2.2.head? =
        some (if b = true ∧ 1 < t.children.length
          then min sel (t.children.length - 1) else 0)) ∧
    (((jumpNextAuxF n t sel b s last).2.2.drop 1).all (fun i => decide (i = 0))) ∧
    (b = false → (jumpNextAuxF n t sel b s last).2.2.all (fun i => decide (i = 0))) := by
  intro n
  induction n with
  | zero =>
    intro t ht
    exact absurd ht (by have := HTree.size_pos t; omega)
  | succ n ih =>
    intro t ht sel b s last
    rw [jumpNextAuxF]
    by_cases h0 : t.children.length = 0
    · have h0' : t.children = [] := List.length_eq_zero.1 h0
      simp [h0, h0', HTree.get?, execAlong, HTree.nodesAlong]
    · by_cases h1 : 1 < t.children.length ∧ b = false
      · simp [h0, h1, HTree.get?, execAlong, HTree.nodesAlong, h1.1]
      · simp only [h0, h1, if_false]
        have hidx : (if b = true ∧ 1 < t.children.length
            then min sel (t.children.length - 1) else 0) < t.children.length := by
          by_cases hc : b = true ∧ 1 < t.children.length
          · simp [hc]; omega
          · simp [hc]; omega
        obtain ⟨next, hnext⟩ : ∃ next,
            t.children[(if b = true ∧ 1 < t.children.length
              then min sel (t.children.length - 1) else 0)]? = some next :=
          ⟨_, List.getElem?_eq_getElem hidx⟩
        rw [hnext]
        simp only
        have hmem := List.getElem?_mem hnext
        have hsz : next.size ≤ n := by
          have := HTree.size_lt_of_mem_children hmem
          omega
        obtain ⟨ihlen, ⟨stop, ihget, ihstop⟩, ihstate, _, _, ihall⟩ :=
          ih next hsz sel false
            (match next.command with | some c => c.execute s | none => s)
            (match next.command with | some c => c.getAffectedCurveId | none => last)
        have hall0 := ihall rfl
        refine ⟨?_, ⟨stop, ?_, ihstop⟩, ?_, ?_, ?_, ?_⟩
        · have hh := HTree.height_lt_of_mem_children hmem
          simp only [List.length_cons]
          omega
        · simp [HTree.get?, hnext, ihget]
        · simp only [execAlong, HTree.nodesAlong, hnext, List.foldl_cons]
          exact ihstate
        · right; simp
        · simpa using hall0
        · intro hb
          subst hb
          simp [hall0]

/-- The forward-loop specification at the canonical fuel. -/
theorem jumpNextAux_spec (t : HTree) (sel : Nat) (b : Bool) (s : AppState)
    (last : Option String) :
    (jumpNextAux t sel b s last).2.2.length ≤ t.height ∧
    (∃ stop, t.get? (jumpNextAux t sel b s last).2.2 = some stop ∧
      (stop.children.length = 0 ∨ 1 < stop.children.length)) ∧
    (jumpNextAux t sel b s last).1 = execAlong t (jumpNextAux t sel b s last).2.2 s ∧
    ((jumpNextAux t sel b s last).2.2.head? = none ∨
      (jumpNextAux t sel b s last).2.2.head? =
        some (if b = true ∧ 1 < t.children.length
          then min sel (t.children.length - 1) else 0)) ∧
    (((jumpNextAux t sel b s last).2.2.drop 1).all (fun i => decide (i = 0))) ∧
    (b = false → (jumpNextAux t sel b s last).2.2.all (fun i => decide (i = 0))) :=
  jumpNextAuxF_spec t.size t le_rfl sel b s last

/-- C6: from any valid state, `jumpToNextIntersectionOrEnd` terminates
after at most height-of-the-current-subtree steps (hence at most
tree-height steps), traverses a path that starts with
`children[min(selectedChildIndex, length-1)]` and follows `children[0]`
afterwards, executes each traversed node's command, and stops on a node
with either zero children or two or more children. -/
theorem jumpToNextIntersectionOrEnd_spec (h : HistoryManager) (cur : HTree)
    (hcur : h.current? = some cur) :
    ∃ rel,
      (h.jumpToNextIntersectionOrEnd).1.path = h.path ++ rel ∧
      rel.length ≤ cur.height ∧
      (h.jumpToNextIntersectionOrEnd).1.selectedChildIndex = 0 ∧
      (h.jumpToNextIntersectionOrEnd).1.state = execAlong cur rel h.state ∧
      (rel.head? = none ∨ rel.head? =
        some (if 1 < cur.children.length
          then min h.selectedChildIndex (cur.children.length - 1) else 0)) ∧
      ((rel.drop 1).all (fun i => decide (i = 0))) ∧
      ∃ stop, cur.get? rel = some stop ∧
        (stop.children.length = 0 ∨ 1 < stop.children.length) := by
  obtain ⟨hlen, ⟨stop, hget, hstop⟩, hstate, hhead, hall, _⟩ :=
    jumpNextAux_spec cur h.selectedChildIndex true h.state none
  refine ⟨(jumpNextAux cur h.selectedChildIndex true h.state none).2.2,
    ?_, hlen, ?_, ?_, ?_, hall, stop, hget, hstop⟩
  · simp [HistoryManager.jumpToNextIntersectionOrEnd, hcur]
  · simp [HistoryManager.jumpToNextIntersectionOrEnd, hcur]
  · simp only [HistoryManager.jumpToNextIntersectionOrEnd, hcur]
    exact hstate
  · simpa using hhead

/-- Witness for `jumpToNextIntersectionOrEnd_spec`: a two-node chain
below the root. -/
theorem jumpToNextIntersectionOrEnd_spec_witness :
    ({ root := .node none "Initial state"
         [.node (some (.addPoint "a" ⟨1, 1⟩)) "Add point to blue" []],
       path := [], state := ⟨[⟨"a", [], "#4a9eff"⟩]⟩,
       selectedChildIndex := 0 } : HistoryManager).current? =
      some (.node none "Initial state"
        [.node (some (.addPoint "a" ⟨1, 1⟩)) "Add point to blue" []]) ∧
    ∃ rel,
      (({ root := .node none "Initial state"
            [.node (some (.addPoint "a" ⟨1, 1⟩)) "Add point to blue" []],
          path := [], state := ⟨[⟨"a", [], "#4a9eff"⟩]⟩,
          selectedChildIndex := 0 } :
          HistoryManager).jumpToNextIntersectionOrEnd).1.path = [] ++ rel ∧
      rel.length ≤ HTree.height (.node none "Initial state"
        [.node (some (.addPoint "a" ⟨1, 1⟩)) "Add point to blue" []]) ∧
      ∃ stop, HTree.get? (.node none "Initial state"
          [.node (some (.addPoint "a" ⟨1, 1⟩)) "Add point to blue" []]) rel = some stop ∧
        (stop.children.length = 0 ∨ 1 < stop.children.length) := by
  refine ⟨rfl, ?_⟩
  obtain ⟨rel, hpath, hlen, _, _, _, _, stop, hget, hstop⟩ :=
    jumpToNextIntersectionOrEnd_spec
      { root := .node none "Initial state"
          [.node (some (.addPoint "a" ⟨1, 1⟩)) "Add point to blue" []],
        path := [], state := ⟨[⟨"a", [], "#4a9eff"⟩]⟩,
        selectedChildIndex := 0 } _ rfl
  exact ⟨rel, hpath, hlen, stop, hget, hstop⟩

/-- A sequence of branch-switch calls: `true` for `switchToNextBranch`,
`false` for `switchToPreviousBranch`. -/
def applySwitches (h : HistoryManager) : List Bool → HistoryManager
  | [] => h
  | b :: ops =>
      applySwitches (if b then h.switchToNextBranch.1 else h.switchToPreviousBranch.1) ops

theorem switchToNextBranch_frame (h : HistoryManager) :
    h.switchToNextBranch.1.root = h.root ∧ h.switchToNextBranch.1.path = h.path ∧
    h.switchToNextBranch.1.state = h.state := by
  unfold HistoryManager.switchToNextBranch
  by_cases hn : 1 < ((h.current?).map (fun t => t.children.length)).getD 0 <;> simp [hn]

theorem switchToPreviousBranch_frame (h : HistoryManager) :
    h.switchToPreviousBranch.1.root = h.root ∧ h.switchToPreviousBranch.1.path = h.path ∧
    h.switchToPreviousBranch.1.state = h.state := by
  unfold HistoryManager.switchToPreviousBranch
  by_cases hn : 1 < ((h.current?).map (fun t => t.children.length)).getD 0 <;> simp [hn]

/-- C9: at an intersection (current node with more than one child),
`switchToNextBranch` and `switchToPreviousBranch` only move
`selectedChildIndex` by plus or minus one modulo the number of children
and return null; no command runs, and any sequence of such calls leaves
the tree, the current path and the curve state unchanged; the selection
takes effect on the next `redo`, which executes exactly the selected
child's command. -/
theorem switch_branch_spec (h : HistoryManager) (cur : HTree)
    (hcur : h.current? = some cur) (hn : 1 < cur.children.length) :
    h.switchToNextBranch =
      ({ h with selectedChildIndex :=
          (h.selectedChildIndex + 1) % cur.children.length }, none) ∧
    h.switchToPreviousBranch =
      ({ h with selectedChildIndex :=
          (h.selectedChildIndex + cur.children.length - 1) % cur.children.length }, none) ∧
    (∀ ops : List Bool, (applySwitches h ops).root = h.root ∧
      (applySwitches h ops).path = h.path ∧ (applySwitches h ops).state = h.state) ∧
    (∀ k next c, cur.children[k]? = some next → next.command = some c →
      k < cur.children.length →
      HistoryManager.redo { h with selectedChildIndex := k } =
        some ({ h with
          path := h.path ++ [k]
          state := c.execute h.state
          selectedChildIndex := 0 }, c.getAffectedCurveId)) := by
  refine ⟨?_, ?_, ?_, ?_⟩
  · simp [HistoryManager.switchToNextBranch, hcur, hn]
  · simp [HistoryManager.switchToPreviousBranch, hcur, hn]
  · intro ops
    clear hcur hn
    induction ops generalizing h with
    | nil => exact ⟨rfl, rfl, rfl⟩
    | cons b ops ih =>
      simp only [applySwitches]
      obtain ⟨hr, hp, hs⟩ := ih (if b then h.switchToNextBranch.1
        else h.switchToPreviousBranch.1)
      cases b with
      | true =>
        obtain ⟨hr1, hp1, hs1⟩ := switchToNextBranch_frame h
        simp only [if_pos rfl] at hr hp hs
        exact ⟨hr.trans hr1, hp.trans hp1, hs.trans hs1⟩
      | false =>
        obtain ⟨hr1, hp1, hs1⟩ := switchToPreviousBranch_frame h
        simp only [Bool.false_eq_true, if_false] at hr hp hs
        exact ⟨hr.trans hr1, hp.trans hp1, hs.trans hs1⟩
  · intro k next c hnext hc hk
    have hcur' : HistoryManager.current? { h with selectedChildIndex := k } = some cur := hcur
    have hne : cur.children.isEmpty = false := by
      cases hch : cur.children with
      | nil => rw [hch] at hn; simp at hn
      | cons x xs => rfl
    have hmin : min k (cur.children.length - 1) = k := by omega
    simp [HistoryManager.redo, hcur', hne, hmin, hnext, hc]

/-- Witness for `switch_branch_spec`: a root with two child branches. -/
theorem switch_branch_spec_witness :
    ({ root := .node none "Initial state"
         [.node (some (.addPoint "a" ⟨1, 1⟩)) "Add point to blue" [],
          .node (some (.addPoint "a" ⟨2, 2⟩)) "Add point to blue" []],
       path := [], state := ⟨[⟨"a", [], "#4a9eff"⟩]⟩,
       selectedChildIndex := 0 } : HistoryManager).current? =
      some (.node none "Initial state"
        [.node (some (.addPoint "a" ⟨1, 1⟩)) "Add point to blue" [],
         .node (some (.addPoint "a" ⟨2, 2⟩)) "Add point to blue" []]) ∧
    1 < (HTree.node none "Initial state"
        [.node (some (.addPoint "a" ⟨1, 1⟩)) "Add point to blue" [],
         .node (some (.addPoint "a" ⟨2, 2⟩)) "Add point to blue" []]).children.length ∧
    ({ root := .node none "Initial state"
         [.node (some (.addPoint "a" ⟨1, 1⟩)) "Add point to blue" [],
          .node (some (.addPoint "a" ⟨2, 2⟩)) "Add point to blue" []],
       path := [], state := ⟨[⟨"a", [], "#4a9eff"⟩]⟩,
       selectedChildIndex := 0 } : HistoryManager).switchToNextBranch.1.selectedChildIndex
      = 1 := by
  refine ⟨rfl, by decide, ?_⟩
  have hmain := switch_branch_spec
    { root := .node none "Initial state"
        [.node (some (.addPoint "a" ⟨1, 1⟩)) "Add point to blue" [],
         .node (some (.addPoint "a" ⟨2, 2⟩)) "Add point to blue" []],
      path := [], state := ⟨[⟨"a", [], "#4a9eff"⟩]⟩, selectedChildIndex := 0 }
    (.node none "Initial state"
      [.node (some (.addPoint "a" ⟨1, 1⟩)) "Add point to blue" [],
       .node (some (.addPoint "a" ⟨2, 2⟩)) "Add point to blue" []])
    rfl (by decide)
  rw [hmain.1]
  rfl


/-- C10 (amended): every navigation operation that performs work resets
`selectedChildIndex` to 0 — `undo` away from the root, `redo` with
children present, `switchToBranch`, and both jump operations (which reset
even when they do not move); so a branch selection survives only until
the next navigation.  (A refused `undo` or `redo` — at the root or with
no children — returns null without resetting the selection.) -/
theorem navigation_resets_selection :
    (∀ (h h' : HistoryManager) (r : Option String),
      h.undo = some (h', r) → h.path ≠ [] → h'.selectedChildIndex = 0) ∧
    (∀ (h h' : HistoryManager) (r : Option String) (cur : HTree),
      h.current? = some cur → cur.children ≠ [] →
      h.redo = some (h', r) → h'.selectedChildIndex = 0) ∧
    (∀ (h : HistoryManager) (target : List Nat) (h' : HistoryManager) (r : Option String),
      h.switchToBranch target = some (h', r) → h'.selectedChildIndex = 0) ∧
    (∀ (h : HistoryManager) (cur : HTree), h.current? = some cur →
      (h.jumpToNextIntersectionOrEnd).1.selectedChildIndex = 0) ∧
    (∀ (h h' : HistoryManager) (r : Option String),
      h.jumpToPreviousIntersectionOrStart = some (h', r) →
      h'.selectedChildIndex = 0) := by
  refine ⟨?_, ?_, ?_, ?_, ?_⟩
  · intro h h' r hu hpath
    unfold HistoryManager.undo at hu
    rw [if_neg (by simpa using hpath)] at hu
    split at hu
    · exact absurd hu (by simp)
    · split at hu
      · exact absurd hu (by simp)
      · obtain ⟨e1, e2⟩ := Prod.mk.inj (Option.some.inj hu)
        subst e1
        rfl
  · intro h h' r cur hc hch hr
    unfold HistoryManager.redo at hr
    rw [hc] at hr
    simp only [if_neg (show ¬cur.children.isEmpty = true by simpa using hch)] at hr
    split at hr
    · exact absurd hr (by simp)
    · split at hr
      · exact absurd hr (by simp)
      · obtain ⟨e1, e2⟩ := Prod.mk.inj (Option.some.inj hr)
        subst e1
        rfl
  · intro h target h' r hs
    unfold HistoryManager.switchToBranch at hs
    dsimp only at hs
    split at hs
    · exact absurd hs (by simp)
    · obtain ⟨e1, e2⟩ := Prod.mk.inj (Option.some.inj hs)
      subst e1
      rfl
  · intro h cur hc
    simp [HistoryManager.jumpToNextIntersectionOrEnd, hc]
  · intro h h' r hj
    unfold HistoryManager.jumpToPreviousIntersectionOrStart at hj
    split at hj
    · exact absurd hj (by simp)
    · obtain ⟨e1, e2⟩ := Prod.mk.inj (Option.some.inj hj)
      subst e1
      rfl

/-- Witness for `navigation_resets_selection`: a one-command history with
the selection pre-set to 3; `undo` resets it. -/
theorem navigation_resets_selection_witness :
    ({ root := .node none "Initial state" [.node (some (.addPoint "a" ⟨1, 1⟩)) "Add point to blue" []], path := [0], state := ⟨[⟨"a", [⟨1, 1⟩], "#4a9eff"⟩]⟩, selectedChildIndex := 3 } : HistoryManager).undo =
      some ({ root := .node none "Initial state" [.node (some (.addPoint "a" ⟨1, 1⟩)) "Add point to blue" []], path := [], state := ⟨[⟨"a", [], "#4a9eff"⟩]⟩, selectedChildIndex := 0 }, none) ∧
    ([0] : List Nat) ≠ [] ∧
    ({ root := .node none "Initial state" [.node (some (.addPoint "a" ⟨1, 1⟩)) "Add point to blue" []], path := [], state := ⟨[⟨"a", [], "#4a9eff"⟩]⟩, selectedChildIndex := 0 } : HistoryManager).selectedChildIndex = 0 :=
  ⟨rfl, by decide,
    navigation_resets_selection.1
      { root := .node none "Initial state" [.node (some (.addPoint "a" ⟨1, 1⟩)) "Add point to blue" []], path := [0], state := ⟨[⟨"a", [⟨1, 1⟩], "#4a9eff"⟩]⟩, selectedChildIndex := 3 }
      { root := .node none "Initial state" [.node (some (.addPoint "a" ⟨1, 1⟩)) "Add point to blue" []], path := [], state := ⟨[⟨"a", [], "#4a9eff"⟩]⟩, selectedChildIndex := 0 }
      none rfl (by decide)⟩

/-- C10 counterexample: a forward jump from an intersection applies the
selected child's command, so an immediately following `redo` is not the
only operation that honours the branch selection — two states that differ
only in `selectedChildIndex` produce different curve states under
`jumpToNextIntersectionOrEnd` alone. -/
theorem jump_honours_selection :
    (HistoryManager.jumpToNextIntersectionOrEnd
      { root := .node none "Initial state"
          [.node (some (.addPoint "a" ⟨1, 1⟩)) "Add point to blue" [],
           .node (some (.addPoint "a" ⟨2, 2⟩)) "Add point to blue" []],
        path := [], state := ⟨[⟨"a", [], "#4a9eff"⟩]⟩,
        selectedChildIndex := 1 }).1.state ≠
    (HistoryManager.jumpToNextIntersectionOrEnd
      { root := .node none "Initial state"
          [.node (some (.addPoint "a" ⟨1, 1⟩)) "Add point to blue" [],
           .node (some (.addPoint "a" ⟨2, 2⟩)) "Add point to blue" []],
        path := [], state := ⟨[⟨"a", [], "#4a9eff"⟩]⟩,
        selectedChildIndex := 0 }).1.state := by decide


/-! ### The curve store (`CurveManager.ts`)

`Math.random().toString(36).substr(2, 9)` makes the fresh id an external
input, passed explicitly to the operations that may create a curve. -/

/-- The fixed curve palette, cycled in order. -/
def colorPalette : List String :=
  ["#4a9eff", "#ff4a9e", "#4aff9e", "#ff9e4a", "#9e4aff", "#4afff9"]

/-- The `CurveManager` state: curves, active selection, palette cursor. -/
structure CurveManager where
  curves : List Curve
  activeCurveId : Option String
  nextColorIndex : Nat
deriving DecidableEq, Repr

namespace CurveManager

/-- `addCurve()`: append a fresh empty curve with the next palette color,
make it active, advance the palette cursor, return the id.  The source
indexes the palette directly; the cursor is always kept in range by the
modulo update, so the out-of-range default is unreachable. -/
def addCurve (m : CurveManager) (freshId : String) : CurveManager × String :=
  ({ curves := m.curves ++
       [{ id := freshId, points := [], color := colorPalette.getD m.nextColorIndex "undefined" }],
     activeCurveId := some freshId,
     nextColorIndex := (m.nextColorIndex + 1) % colorPalette.length }, freshId)

/-- `removeCurve(id)`: no-op when the id is unknown; otherwise splice the
curve out, move the active selection to the first remaining curve when
the removed curve was active (null when none remain), and add a fresh
empty curve when the store became empty. -/
def removeCurve (m : CurveManager) (id : String) (freshId : String) : CurveManager :=
  match m.curves.findIdx? (fun c => c.id == id) with
  | none => m
  | some index =>
    let curves1 := removeAt m.curves index
    let active1 := if m.activeCurveId = some id then
        (match curves1 with | [] => none | c :: _ => some c.id)
      else m.activeCurveId
    let m1 : CurveManager :=
      { curves := curves1, activeCurveId := active1, nextColorIndex := m.nextColorIndex }
    if curves1.length = 0 then (m1.addCurve freshId).1 else m1

/-- `clearAllCurves()`: drop everything, then `addCurve()`. -/
def clearAllCurves (m : CurveManager) (freshId : String) : CurveManager :=
  (({ m with curves := [] } : CurveManager).addCurve freshId).1

/-- `setActiveCurve(id)`: ignored when the id is unknown. -/
def setActiveCurve (m : CurveManager) (id : String) : CurveManager :=
  if (m.curves.find? (fun c => c.id == id)).isSome
  then { m with activeCurveId := some id } else m

end CurveManager

/-- C7: the store never becomes empty through `removeCurve` or
`clearAll`; removing the last remaining curve, like `clearAll`, creates a
fresh empty curve carrying the next palette color and makes it active;
removing the active curve moves the selection to the first remaining
curve; removing an unknown id changes nothing. -/
theorem curve_store_never_empty :
    (∀ (m : CurveManager) (id freshId : String),
      m.curves ≠ [] → (m.removeCurve id freshId).curves ≠ []) ∧
    (∀ (m : CurveManager) (freshId : String),
      (m.clearAllCurves freshId).curves =
        [{ id := freshId, points := [],
           color := colorPalette.getD m.nextColorIndex "undefined" }] ∧
      (m.clearAllCurves freshId).activeCurveId = some freshId) ∧
    (∀ (m : CurveManager) (c : Curve) (freshId : String),
      m.curves = [c] →
      (m.removeCurve c.id freshId).curves =
        [{ id := freshId, points := [],
           color := colorPalette.getD m.nextColorIndex "undefined" }] ∧
      (m.removeCurve c.id freshId).activeCurveId = some freshId) ∧
    (∀ (m : CurveManager) (id freshId : String) (i : Nat),
      m.curves.findIdx? (fun c => c.id == id) = some i →
      m.activeCurveId = some id → removeAt m.curves i ≠ [] →
      (m.removeCurve id freshId).activeCurveId =
        ((removeAt m.curves i).head?).map Curve.id) ∧
    (∀ (m : CurveManager) (id freshId : String),
      m.curves.findIdx? (fun c => c.id == id) = none →
      m.removeCurve id freshId = m) := by
  refine ⟨?_, ?_, ?_, ?_, ?_⟩
  · intro m id freshId hne
    unfold CurveManager.removeCurve
    cases hf : m.curves.findIdx? (fun c => c.id == id) with
    | none => simpa using hne
    | some i =>
      dsimp only
      by_cases hz : (removeAt m.curves i).length = 0
      · simp [hz, CurveManager.addCurve]
      · simp only [hz, if_false]
        intro hc
        exact hz (by rw [hc]; rfl)
  · intro m freshId
    exact ⟨rfl, rfl⟩
  · intro m c freshId hm
    have hf : m.curves.findIdx? (fun x => x.id == c.id) = some 0 := by
      rw [hm]; simp [List.findIdx?]
    unfold CurveManager.removeCurve
    rw [hf, hm]
    exact ⟨rfl, rfl⟩
  · intro m id freshId i hf hact hne
    unfold CurveManager.removeCurve
    rw [hf]
    dsimp only
    rw [if_pos hact]
    have hz : ¬ (removeAt m.curves i).length = 0 := by
      intro hc
      exact hne (List.eq_nil_of_length_eq_zero hc)
    rw [if_neg hz]
    cases hr : removeAt m.curves i with
    | nil => exact absurd hr hne
    | cons x xs => simp [hr]
  · intro m id freshId hf
    unfold CurveManager.removeCurve
    rw [hf]

/-- Witness for `curve_store_never_empty`: removing the only (active)
curve of a fresh store. -/
theorem curve_store_never_empty_witness :
    ({ curves := [⟨"a", [], "#4a9eff"⟩], activeCurveId := some "a",
       nextColorIndex := 1 } : CurveManager).curves = [⟨"a", [], "#4a9eff"⟩] ∧
    (({ curves := [⟨"a", [], "#4a9eff"⟩], activeCurveId := some "a",
        nextColorIndex := 1 } : CurveManager).removeCurve "a" "b").curves =
      [⟨"b", [], "#ff4a9e"⟩] ∧
    (({ curves := [⟨"a", [], "#4a9eff"⟩], activeCurveId := some "a",
        nextColorIndex := 1 } : CurveManager).removeCurve "a" "b").activeCurveId =
      some "b" :=
  ⟨by decide,
    by simpa using (curve_store_never_empty.2.2.1
      { curves := [⟨"a", [], "#4a9eff"⟩], activeCurveId := some "a", nextColorIndex := 1 }
      ⟨"a", [], "#4a9eff"⟩ "b" rfl).1,
    by simpa using (curve_store_never_empty.2.2.1
      { curves := [⟨"a", [], "#4a9eff"⟩], activeCurveId := some "a", nextColorIndex := 1 }
      ⟨"a", [], "#4a9eff"⟩ "b" rfl).2⟩


/-! ### JSON loading and validation (`CurveManager.fromJSON`,
`fileUtils.ts`, `FileManager.loadJSONFromFile`)

`fromJSON` copies whatever elements the input's `curves` array holds into
the store without element-level validation, so the runtime store can end
up holding arbitrary JSON values; the store for this analysis therefore
holds raw JSON. -/

/-- A JSON value.  A number carries `none` for NaN (the validators only
ever inspect NaN-ness, never arithmetic). -/
inductive Json where
  | jnull
  | jbool (b : Bool)
  | jnum (val : Option Int)
  | jstr (s : String)
  | jarr (elements : List Json)
  | jobj (fields : List (String × Json))

namespace Json

/-- Property access `v[k]`; `none` is `undefined`. -/
def getField : Json → String → Option Json
  | .jobj fields, k => fields.lookup k
  | _, _ => none

/-- JavaScript truthiness. -/
def truthy : Json → Bool
  | .jnull => false
  | .jbool b => b
  | .jnum none => false
  | .jnum (some q) => decide (q ≠ 0)
  | .jstr s => decide (s ≠ "")
  | .jarr _ => true
  | .jobj _ => true

end Json

/-- `validatePointsArray` (`fileUtils.ts`): an array whose every element
is a truthy object carrying numeric, non-NaN `x` and `y`. -/
def validatePointsArray : Json → Bool
  | .jarr points => points.all (fun p =>
      match p with
      | .jobj fields =>
          match fields.lookup "x", fields.lookup "y" with
          | some (.jnum (some _)), some (.jnum (some _)) => true
          | _, _ => false
      | _ => false)
  | _ => false

/-- `validateCurvesData` (`fileUtils.ts`): an array whose every element
is a truthy object with string `id`, string `color` and a valid points
array. -/
def validateCurvesData : Json → Bool
  | .jarr curves => curves.all (fun cu =>
      match cu with
      | .jobj fields =>
          (match fields.lookup "id", fields.lookup "color" with
           | some (.jstr _), some (.jstr _) => true
           | _, _ => false) &&
          (match fields.lookup "points" with
           | some pts => validatePointsArray pts
           | none => false)
      | _ => false)
  | _ => false

/-- The store as `fromJSON` sees it at runtime: raw JSON curves, and an
active id that is whatever `curves[0]?.id || null` evaluated to. -/
structure CurveStoreJ where
  curves : List Json
  activeCurveId : Option Json

/-- `CurveManager.fromJSON(data)`: the only check performed is
`data.curves && Array.isArray(data.curves)`; on success the raw elements
replace the store's curves and the active id becomes
`curves[0]?.id || null`, with no element-level validation. -/
def fromJSONStore (input : Json) (m : CurveStoreJ) : CurveStoreJ :=
  match input.getField "curves" with
  | some (.jarr elems) =>
      { curves := elems,
        activeCurveId :=
          match elems.head? with
          | some e =>
            match e.getField "id" with
            | some v => if v.truthy then some v else none
            | none => none
          | none => none }
  | _ => m

/-- Whether `fromJSON` would accept the input (its sole check). -/
def hasCurvesArray (input : Json) : Bool :=
  match input.getField "curves" with
  | some (.jarr _) => true
  | _ => false

/-- `FileManager.loadJSONFromFile` / `main.ts` load path: with a truthy
`curves` field, reject unless `validateCurvesData` passes; otherwise with
a truthy `points` field, reject unless `validatePointsArray` passes and
build the legacy single curve (`curve-<epoch-ms>` id passed in); reject
otherwise.  `none` is a rejected load: the alert fires before any store
or history mutation. -/
def loadAcceptedCurves (data : Json) (legacyId : String) : Option (List Json) :=
  if (data.getField "curves").elim false Json.truthy then
    match data.getField "curves" with
    | some cs =>
        if validateCurvesData cs then
          match cs with
          | .jarr elems => some elems
          | _ => none
        else none
    | none => none
  else if (data.getField "points").elim false Json.truthy then
    match data.getField "points" with
    | some ps =>
        if validatePointsArray ps then
          some [.jobj [("id", .jstr legacyId), ("color", .jstr "#4a9eff"), ("points", ps)]]
        else none
    | none => none
  else none

/-- C5 (amended): the store's `fromJSON` itself validates only that the
input carries a curves array and leaves curves and active selection
unchanged when that single check fails; the full structural validation
the claim describes (string id, string color, numeric non-NaN points)
lives in the file-load pipeline, which rejects the input before any
mutation when `validateCurvesData` fails. -/
theorem fromJSON_validation_behavior :
    (∀ (input : Json) (m : CurveStoreJ),
      hasCurvesArray input = false → fromJSONStore input m = m) ∧
    (∀ (data : Json) (legacyId : String) (cs : Json),
      data.getField "curves" = some cs → cs.truthy = true →
      validateCurvesData cs = false → loadAcceptedCurves data legacyId = none) ∧
    (∀ (data : Json) (legacyId : String) (cs : Json) (elems : List Json),
      data.getField "curves" = some cs → cs.truthy = true →
      loadAcceptedCurves data legacyId = some elems → validateCurvesData cs = true) := by
  refine ⟨?_, ?_, ?_⟩
  · intro input m h
    unfold fromJSONStore
    unfold hasCurvesArray at h
    split
    · rename_i heq
      rw [heq] at h
      simp at h
    · rfl
  · intro data legacyId cs hcs htr hval
    unfold loadAcceptedCurves
    rw [if_pos (by rw [hcs]; simpa using htr), hcs]
    simp [hval]
  · intro data legacyId cs elems hcs htr hacc
    by_contra hval
    have : loadAcceptedCurves data legacyId = none := by
      unfold loadAcceptedCurves
      rw [if_pos (by rw [hcs]; simpa using htr), hcs]
      simp [hval]
    rw [this] at hacc
    exact Option.noConfusion hacc

/-- Witness for `fromJSON_validation_behavior`: an input without a curves
array leaves the store untouched, and a malformed curves array is
rejected by the load pipeline. -/
theorem fromJSON_validation_behavior_witness :
    hasCurvesArray (.jobj [("curves", .jstr "not-an-array")]) = false ∧
    fromJSONStore (.jobj [("curves", .jstr "not-an-array")])
      ⟨[.jobj [("id", .jstr "a")]], some (.jstr "a")⟩ =
      ⟨[.jobj [("id", .jstr "a")]], some (.jstr "a")⟩ ∧
    loadAcceptedCurves (.jobj [("curves", .jarr [.jnull])]) "curve-0" = none :=
  ⟨by decide,
    fromJSON_validation_behavior.1 (.jobj [("curves", .jstr "not-an-array")])
      ⟨[.jobj [("id", .jstr "a")]], some (.jstr "a")⟩ (by decide),
    fromJSON_validation_behavior.2.1 (.jobj [("curves", .jarr [.jnull])]) "curve-0"
      (.jarr [.jnull]) rfl (by decide) (by decide)⟩

/-- C5 counterexample: `fromJSON` accepts a curves array whose elements
fail every structural check (no string id, no color, no points), and the
store changes — the element-level validation the claim attributes to
`fromJSON` does not happen there. -/
theorem fromJSON_accepts_invalid_curves :
    validateCurvesData (.jarr [.jobj [("foo", .jnum (some 1))], .jnull]) = false ∧
    (fromJSONStore
      (.jobj [("curves", .jarr [.jobj [("foo", .jnum (some 1))], .jnull])])
      ⟨[.jobj [("id", .jstr "a"), ("color", .jstr "#4a9eff"), ("points", .jarr [])]],
        some (.jstr "a")⟩).curves.length = 2 ∧
    ([Json.jobj [("id", .jstr "a"), ("color", .jstr "#4a9eff"),
      ("points", .jarr [])]].length = 1) := by
  refine ⟨by decide, by decide, by decide⟩


/-! ### Shared history and collaborative undo/redo
(`SharedHistoryManager.ts`, `CollaborationManager.ts`)

The CRDT document carries `{curves, users, history}`; presence data plays
no role in the claims and is omitted.  The node map is an association
list keyed by uuid. -/

/-- `SharedHistoryNode` (`types.ts`): serialized command (null at the
root), parent, ordered children, originator.  The wall-clock timestamp is
omitted. -/
structure SharedHistoryNode where
  id : String
  command : Option SerializedCommand
  parentId : Option String
  childIds : List String
  descr : String
  userId : String
deriving DecidableEq, Repr

/-- `CollaborativeHistory`: the node map plus root and current ids. -/
structure CollaborativeHistory where
  nodes : List (String × SharedHistoryNode)
  rootId : String
  currentNodeId : String
deriving DecidableEq, Repr

/-- The document the claims inspect: curves and the optional history. -/
structure CollabState where
  curves : List Curve
  history : Option CollaborativeHistory
deriving DecidableEq, Repr

/-- The `CollaborationManager` as far as undo/redo is concerned: the
enabled flag, the transport connection state, and the CRDT document. -/
structure CollabManager where
  enabled : Bool
  connected : Bool
  doc : CollabState
deriving DecidableEq, Repr

/-- The walk of `getPathToNode`: climb `parentId` links from the target,
prepending ids, until the root id (excluded) or `null`.  A missing node
on the way throws (`none`); a parent cycle never terminates in the
source, which the fuel, chosen larger than the node count, also maps to
`none` (a terminating run visits distinct ids, so it never exhausts this
fuel). -/
def getPathAux (hist : CollaborativeHistory) :
    Nat → Option String → List String → Option (List String)
  | _, none, acc => some acc
  | fuel, some cid, acc =>
      if cid = hist.rootId then some acc
      else
        match fuel with
        | 0 => none
        | fuel + 1 =>
          match hist.nodes.lookup cid with
          | none => none
          | some node => getPathAux hist fuel node.parentId (cid :: acc)

/-- `getPathToNode(history, nodeId)`. -/
def getPathToNode (hist : CollaborativeHistory) (nodeId : String) :
    Option (List String) :=
  getPathAux hist (hist.nodes.length + 1) (some nodeId) []

/-- `reconstructState(history, targetNodeId, initialCurves)`: replay the
deserialized command of every node on the root-to-target path against the
initial curves; a node whose command deserializes to null is skipped; a
crash while deserializing (the `RemoveCurve` payload) aborts the whole
computation (`none`). -/
def reconstructState (hist : CollaborativeHistory) (targetNodeId : String)
    (initialCurves : List Curve) : Option (List Curve) :=
  match getPathToNode hist targetNodeId with
  | none => none
  | some path =>
    path.foldlM (fun curves nid =>
      match hist.nodes.lookup nid with
      | none => none
      | some node =>
        match node.command with
        | none => some curves
        | some sc =>
          match deserializeCommand sc with
          | .ok c => some (c.execute ⟨curves⟩).curves
          | .skip => some curves
          | .crash => none) initialCurves

namespace CollabManager

/-- `CollaborationManager.undo()`: refuse unless enabled and connected;
refuse without a history, a current node, or a truthy `parentId`
(`!currentNode.parentId`, so the empty string also refuses).  Otherwise
run the CRDT transaction that moves `currentNodeId` to the parent and
splices in the reconstructed curves; if reconstruction throws inside the
mutator, `executeLocalCommand` catches the error and the transaction is
rolled back — the document stays unchanged — yet `undo` still returns
true. -/
def undo (m : CollabManager) : CollabManager × Bool :=
  if !(m.enabled && m.connected) then (m, false)
  else
    match m.doc.history with
    | none => (m, false)
    | some hist =>
      match hist.nodes.lookup hist.currentNodeId with
      | none => (m, false)
      | some cur =>
        match cur.parentId with
        | none => (m, false)
        | some pid =>
          if pid = "" then (m, false)
          else
            match reconstructState hist pid [] with
            | none => (m, true)
            | some newCurves =>
              ({ m with doc :=
                { curves := newCurves,
                  history := some { hist with currentNodeId := pid } } }, true)

/-- `CollaborationManager.redo()`: like `undo`, but move to
`childIds[0]` when children exist (no branch choice in shared mode). -/
def redo (m : CollabManager) : CollabManager × Bool :=
  if !(m.enabled && m.connected) then (m, false)
  else
    match m.doc.history with
    | none => (m, false)
    | some hist =>
      match hist.nodes.lookup hist.currentNodeId with
      | none => (m, false)
      | some cur =>
        match cur.childIds with
        | [] => (m, false)
        | cid :: _ =>
          match reconstructState hist cid [] with
          | none => (m, true)
          | some newCurves =>
            ({ m with doc :=
              { curves := newCurves,
                history := some { hist with currentNodeId := cid } } }, true)

/-- `canUndo()`: enabled, history present, current node found, and
`parentId !== null` (the connection state is not consulted). -/
def canUndo (m : CollabManager) : Bool :=
  if !m.enabled then false
  else
    match m.doc.history with
    | none => false
    | some hist =>
      match hist.nodes.lookup hist.currentNodeId with
      | none => false
      | some cur => cur.parentId.isSome

/-- `canRedo()`: enabled, history present, current node found, and
`childIds.length > 0`. -/
def canRedo (m : CollabManager) : Bool :=
  if !m.enabled then false
  else
    match m.doc.history with
    | none => false
    | some hist =>
      match hist.nodes.lookup hist.currentNodeId with
      | none => false
      | some cur => !cur.childIds.isEmpty

end CollabManager

/-- C4 (amended): in shared mode (enabled and connected, history present,
current node found) `sharedUndo` reports success exactly when the current
node has a truthy `parentId`, and — provided replaying the path to the
parent succeeds — moves `currentNodeId` there and splices in the curves
reconstructed from the empty initial state; `sharedRedo` reports success
exactly when `childIds` is non-empty and, under the same replay proviso,
moves to `childIds[0]` and never to any other child; `canUndo` reports
`parentId ≠ null` and `canRedo` reports `childIds ≠ []`.  When the replay
throws (a `RemoveCurve` node on the path), the transaction is rolled back
and the document is unchanged although the call still returns true. -/
theorem shared_undo_redo_spec (m : CollabManager) (hist : CollaborativeHistory)
    (cur : SharedHistoryNode)
    (hen : m.enabled = true) (hcon : m.connected = true)
    (hhist : m.doc.history = some hist)
    (hcur : hist.nodes.lookup hist.currentNodeId = some cur) :
    ((m.undo).2 = true ↔ ∃ pid, cur.parentId = some pid ∧ pid ≠ "") ∧
    (∀ pid cs, cur.parentId = some pid → pid ≠ "" →
      reconstructState hist pid [] = some cs →
      m.undo = ({ m with doc :=
        { curves := cs, history := some { hist with currentNodeId := pid } } }, true)) ∧
    ((m.redo).2 = true ↔ cur.childIds ≠ []) ∧
    (∀ cid rest cs, cur.childIds = cid :: rest →
      reconstructState hist cid [] = some cs →
      m.redo = ({ m with doc :=
        { curves := cs, history := some { hist with currentNodeId := cid } } }, true)) ∧
    (m.canUndo = true ↔ cur.parentId ≠ none) ∧
    (m.canRedo = true ↔ cur.childIds ≠ []) := by
  have hgate : (!(m.enabled && m.connected)) = false := by rw [hen, hcon]; rfl
  have hgate2 : (!m.enabled) = false := by rw [hen]; rfl
  refine ⟨?_, ?_, ?_, ?_, ?_, ?_⟩
  · unfold CollabManager.undo
    simp only [hgate, Bool.false_eq_true, if_false, hhist, hcur]
    cases hp : cur.parentId with
    | none => simp
    | some pid =>
      by_cases hpe : pid = ""
      · subst hpe; simp
      · simp only [if_neg hpe]
        cases hr : reconstructState hist pid [] with
        | none => simp [hr, hpe]
        | some cs => simp [hr, hpe]
  · intro pid cs hp hpe hr
    unfold CollabManager.undo
    simp only [hgate, Bool.false_eq_true, if_false, hhist, hcur, hp, if_neg hpe, hr]
  · unfold CollabManager.redo
    simp only [hgate, Bool.false_eq_true, if_false, hhist, hcur]
    cases hch : cur.childIds with
    | nil => simp
    | cons cid rest =>
      cases hr : reconstructState hist cid [] with
      | none => simp [hr]
      | some cs => simp [hr]
  · intro cid rest cs hch hr
    unfold CollabManager.redo
    simp only [hgate, Bool.false_eq_true, if_false, hhist, hcur, hch, hr]
  · unfold CollabManager.canUndo
    simp only [hgate2, Bool.false_eq_true, if_false, hhist, hcur]
    simp [Option.isSome_iff_ne_none]
  · unfold CollabManager.canRedo
    simp only [hgate2, Bool.false_eq_true, if_false, hhist, hcur]
    simp

/-- Witness for `shared_undo_redo_spec`: a two-node history (root plus
one AddPoint node) with the current node at the child; undo moves to the
root and reconstructs the empty state. -/
theorem shared_undo_redo_spec_witness :
    (({ enabled := true, connected := true, doc := { curves := [⟨"a", [⟨1, 1⟩], "#4a9eff"⟩], history := some { nodes := [("r", { id := "r", command := none, parentId := none, childIds := ["n1"], descr := "Initial state", userId := "u" }), ("n1", { id := "n1", command := some ⟨"AddPoint", { curveId := some "a", point := some ⟨1, 1⟩ }⟩, parentId := some "r", childIds := [], descr := "AddPointCommand", userId := "u" })], rootId := "r", currentNodeId := "n1" } } } : CollabManager).undo).2 = true :=
  ((shared_undo_redo_spec
    { enabled := true, connected := true, doc := { curves := [⟨"a", [⟨1, 1⟩], "#4a9eff"⟩], history := some { nodes := [("r", { id := "r", command := none, parentId := none, childIds := ["n1"], descr := "Initial state", userId := "u" }), ("n1", { id := "n1", command := some ⟨"AddPoint", { curveId := some "a", point := some ⟨1, 1⟩ }⟩, parentId := some "r", childIds := [], descr := "AddPointCommand", userId := "u" })], rootId := "r", currentNodeId := "n1" } } }
    { nodes := [("r", { id := "r", command := none, parentId := none, childIds := ["n1"], descr := "Initial state", userId := "u" }), ("n1", { id := "n1", command := some ⟨"AddPoint", { curveId := some "a", point := some ⟨1, 1⟩ }⟩, parentId := some "r", childIds := [], descr := "AddPointCommand", userId := "u" })], rootId := "r", currentNodeId := "n1" }
    { id := "n1", command := some ⟨"AddPoint", { curveId := some "a", point := some ⟨1, 1⟩ }⟩, parentId := some "r", childIds := [], descr := "AddPointCommand", userId := "u" }
    rfl rfl rfl (by decide)).1).2 ⟨"r", rfl, by decide⟩

/-- C4 counterexample: a history whose path to the parent contains a
`RemoveCurve` node, serialized by the code itself with an empty payload;
`undo` returns true, yet the document — including `currentNodeId` — is
completely unchanged, because the reconstruction throws inside the
transaction and `executeLocalCommand` swallows the error. -/
theorem shared_undo_swallows_crash :
    (({ enabled := true, connected := true, doc := { curves := [], history := some { nodes := [("r", { id := "r", command := none, parentId := none, childIds := ["n1"], descr := "Initial state", userId := "u" }), ("n1", { id := "n1", command := some ⟨"RemoveCurve", {}⟩, parentId := some "r", childIds := ["n2"], descr := "RemoveCurveCommand", userId := "u" }), ("n2", { id := "n2", command := some ⟨"AddPoint", { curveId := some "a", point := some ⟨1, 1⟩ }⟩, parentId := some "n1", childIds := [], descr := "AddPointCommand", userId := "u" })], rootId := "r", currentNodeId := "n2" } } } : CollabManager).undo).2 = true ∧
    (({ enabled := true, connected := true, doc := { curves := [], history := some { nodes := [("r", { id := "r", command := none, parentId := none, childIds := ["n1"], descr := "Initial state", userId := "u" }), ("n1", { id := "n1", command := some ⟨"RemoveCurve", {}⟩, parentId := some "r", childIds := ["n2"], descr := "RemoveCurveCommand", userId := "u" }), ("n2", { id := "n2", command := some ⟨"AddPoint", { curveId := some "a", point := some ⟨1, 1⟩ }⟩, parentId := some "n1", childIds := [], descr := "AddPointCommand", userId := "u" })], rootId := "r", currentNodeId := "n2" } } } : CollabManager).undo).1 =
    { enabled := true, connected := true, doc := { curves := [], history := some { nodes := [("r", { id := "r", command := none, parentId := none, childIds := ["n1"], descr := "Initial state", userId := "u" }), ("n1", { id := "n1", command := some ⟨"RemoveCurve", {}⟩, parentId := some "r", childIds := ["n2"], descr := "RemoveCurveCommand", userId := "u" }), ("n2", { id := "n2", command := some ⟨"AddPoint", { curveId := some "a", point := some ⟨1, 1⟩ }⟩, parentId := some "n1", childIds := [], descr := "AddPointCommand", userId := "u" })], rootId := "r", currentNodeId := "n2" } } } := by
  refine ⟨by decide, by decide⟩


/-! ### The state coordinator (`StateManager`, embedded in
`NotificationManager.ts`)

The repository carries two variants of the coordinator's undo/redo.  The
delegating variant (lines 166-218) forwards to
`CollaborationManager.undo/redo` when collaboration is enabled and the
transport is connected and falls back to the local tree otherwise, and
its `canUndo`/`canRedo` branch identically; the refusing variant (lines
327-347) instead does nothing at all when collaboration is enabled and
connected.  Both are embedded.  After a shared undo/redo the delegating
variant returns immediately (state is updated later through the
`onRemoteChange` callback), so the local fields are untouched on that
branch. -/

/-- The coordinator state: the optional collaboration manager, the local
history tree (whose `state` holds the store's curves array, which the
source aliases between `CurveManager` and `HistoryManager`), and the
store's active selection. -/
structure StateManager where
  collab : Option CollabManager
  history : HistoryManager
  activeCurveId : Option String

namespace StateManager

/-- `syncStateFromHistory(affectedCurveId)` restricted to its effect on
the active selection: a truthy affected id becomes active when it still
exists, otherwise the first remaining curve does; a null (or empty)
affected id leaves the selection alone. -/
def syncActive (curves : List Curve) (aff : Option String) (act : Option String) :
    Option String :=
  match aff with
  | some id =>
    if id = "" then act
    else if curves.any (fun c => c.id == id) then some id
    else
      match curves with
      | [] => act
      | c :: _ => some c.id
  | none => act

/-- The local undo path: `history.undo()` then `syncStateFromHistory`. -/
def localUndo (sm : StateManager) : Option StateManager :=
  match sm.history.undo with
  | none => none
  | some (h1, aff) =>
    some { sm with
      history := h1
      activeCurveId := syncActive h1.state.curves aff sm.activeCurveId }

/-- The local redo path: `history.redo()` then `syncStateFromHistory`. -/
def localRedo (sm : StateManager) : Option StateManager :=
  match sm.history.redo with
  | none => none
  | some (h1, aff) =>
    some { sm with
      history := h1
      activeCurveId := syncActive h1.state.curves aff sm.activeCurveId }

/-- `undo()` of the delegating variant: shared path when enabled and
connected (local fields untouched), local path otherwise. -/
def undoDelegating (sm : StateManager) : Option StateManager :=
  match sm.collab with
  | some cm =>
    if cm.enabled && cm.connected then some { sm with collab := some (cm.undo).1 }
    else localUndo sm
  | none => localUndo sm

/-- `redo()` of the delegating variant. -/
def redoDelegating (sm : StateManager) : Option StateManager :=
  match sm.collab with
  | some cm =>
    if cm.enabled && cm.connected then some { sm with collab := some (cm.redo).1 }
    else localRedo sm
  | none => localRedo sm

/-- `canUndo()` (defined only in the delegating variant): the shared
availability when enabled and connected, the local tree's otherwise. -/
def canUndo (sm : StateManager) : Bool :=
  match sm.collab with
  | some cm => if cm.enabled && cm.connected then cm.canUndo else sm.history.canUndo
  | none => sm.history.canUndo

/-- `canRedo()` (delegating variant). -/
def canRedo (sm : StateManager) : Bool :=
  match sm.collab with
  | some cm => if cm.enabled && cm.connected then cm.canRedo else sm.history.canRedo
  | none => sm.history.canRedo

/-- `undo()` of the refusing variant: logs `Undo disabled during
collaboration` and returns without doing anything when enabled and
connected; local path otherwise. -/
def undoRefusing (sm : StateManager) : Option StateManager :=
  match sm.collab with
  | some cm =>
    if cm.enabled && cm.connected then some sm
    else localUndo sm
  | none => localUndo sm

/-- `redo()` of the refusing variant. -/
def redoRefusing (sm : StateManager) : Option StateManager :=
  match sm.collab with
  | some cm =>
    if cm.enabled && cm.connected then some sm
    else localRedo sm
  | none => localRedo sm

end StateManager

/-- Whether the coordinator is in shared mode: a collaboration manager is
attached, enabled, and connected. -/
def sharedMode (sm : StateManager) : Bool :=
  ((sm.collab.map (fun cm => cm.enabled && cm.connected)).getD false)

/-- C8 (amended): the delegating coordinator variant forwards undo/redo
to the shared history path exactly when collaboration is enabled and the
transport is connected — leaving the local tree untouched — and calls the
local tree's undo/redo otherwise; `canUndo`/`canRedo` branch on the same
condition.  (The repository also contains a refusing variant that
performs neither shared nor local undo when enabled and connected; see
the counterexample.) -/
theorem coordinator_dispatch_spec :
    (∀ (sm : StateManager) (cm : CollabManager), sm.collab = some cm →
      (cm.enabled && cm.connected) = true →
      sm.undoDelegating = some { sm with collab := some (cm.undo).1 } ∧
      sm.redoDelegating = some { sm with collab := some (cm.redo).1 } ∧
      sm.canUndo = cm.canUndo ∧
      sm.canRedo = cm.canRedo) ∧
    (∀ (sm : StateManager), sharedMode sm = false →
      sm.undoDelegating = sm.localUndo ∧
      sm.redoDelegating = sm.localRedo ∧
      sm.canUndo = sm.history.canUndo ∧
      sm.canRedo = sm.history.canRedo) := by
  constructor
  · intro sm cm hc hb
    refine ⟨?_, ?_, ?_, ?_⟩ <;>
      simp only [StateManager.undoDelegating, StateManager.redoDelegating,
        StateManager.canUndo, StateManager.canRedo, hc, hb, if_true]
  · intro sm hs
    unfold sharedMode at hs
    cases hc : sm.collab with
    | none =>
      refine ⟨?_, ?_, ?_, ?_⟩ <;>
        simp only [StateManager.undoDelegating, StateManager.redoDelegating,
          StateManager.canUndo, StateManager.canRedo, hc]
    | some cm =>
      rw [hc] at hs
      simp only [Option.map_some', Option.getD_some] at hs
      refine ⟨?_, ?_, ?_, ?_⟩ <;>
        simp only [StateManager.undoDelegating, StateManager.redoDelegating,
          StateManager.canUndo, StateManager.canRedo, hc, hs, Bool.false_eq_true, if_false]

/-- Witness for `coordinator_dispatch_spec`: with an enabled, connected
manager holding an undoable shared history, undo delegates. -/
theorem coordinator_dispatch_spec_witness :
    ({ collab := some { enabled := true, connected := true, doc := { curves := [⟨"a", [⟨1, 1⟩], "#4a9eff"⟩], history := some { nodes := [("r", { id := "r", command := none, parentId := none, childIds := ["n1"], descr := "Initial state", userId := "u" }), ("n1", { id := "n1", command := some ⟨"AddPoint", { curveId := some "a", point := some ⟨1, 1⟩ }⟩, parentId := some "r", childIds := [], descr := "AddPointCommand", userId := "u" })], rootId := "r", currentNodeId := "n1" } } }, history := { root := .node none "Initial state" [], path := [], state := ⟨[⟨"a", [⟨1, 1⟩], "#4a9eff"⟩]⟩, selectedChildIndex := 0 }, activeCurveId := some "a" } : StateManager).undoDelegating =
    some { collab := some (CollabManager.undo { enabled := true, connected := true, doc := { curves := [⟨"a", [⟨1, 1⟩], "#4a9eff"⟩], history := some { nodes := [("r", { id := "r", command := none, parentId := none, childIds := ["n1"], descr := "Initial state", userId := "u" }), ("n1", { id := "n1", command := some ⟨"AddPoint", { curveId := some "a", point := some ⟨1, 1⟩ }⟩, parentId := some "r", childIds := [], descr := "AddPointCommand", userId := "u" })], rootId := "r", currentNodeId := "n1" } } }).1, history := { root := .node none "Initial state" [], path := [], state := ⟨[⟨"a", [⟨1, 1⟩], "#4a9eff"⟩]⟩, selectedChildIndex := 0 }, activeCurveId := some "a" } :=
  (coordinator_dispatch_spec.1
    { collab := some { enabled := true, connected := true, doc := { curves := [⟨"a", [⟨1, 1⟩], "#4a9eff"⟩], history := some { nodes := [("r", { id := "r", command := none, parentId := none, childIds := ["n1"], descr := "Initial state", userId := "u" }), ("n1", { id := "n1", command := some ⟨"AddPoint", { curveId := some "a", point := some ⟨1, 1⟩ }⟩, parentId := some "r", childIds := [], descr := "AddPointCommand", userId := "u" })], rootId := "r", currentNodeId := "n1" } } }, history := { root := .node none "Initial state" [], path := [], state := ⟨[⟨"a", [⟨1, 1⟩], "#4a9eff"⟩]⟩, selectedChildIndex := 0 }, activeCurveId := some "a" }
    { enabled := true, connected := true, doc := { curves := [⟨"a", [⟨1, 1⟩], "#4a9eff"⟩], history := some { nodes := [("r", { id := "r", command := none, parentId := none, childIds := ["n1"], descr := "Initial state", userId := "u" }), ("n1", { id := "n1", command := some ⟨"AddPoint", { curveId := some "a", point := some ⟨1, 1⟩ }⟩, parentId := some "r", childIds := [], descr := "AddPointCommand", userId := "u" })], rootId := "r", currentNodeId := "n1" } } }
    rfl rfl).1

/-- C8 counterexample: the refusing coordinator variant, enabled and
connected, with a shared history in which a shared undo would succeed and
move `currentNodeId`, performs neither a shared nor a local undo — the
claim's delegation does not hold for it. -/
theorem refusing_variant_does_not_delegate :
    ({ collab := some { enabled := true, connected := true, doc := { curves := [⟨"a", [⟨1, 1⟩], "#4a9eff"⟩], history := some { nodes := [("r", { id := "r", command := none, parentId := none, childIds := ["n1"], descr := "Initial state", userId := "u" }), ("n1", { id := "n1", command := some ⟨"AddPoint", { curveId := some "a", point := some ⟨1, 1⟩ }⟩, parentId := some "r", childIds := [], descr := "AddPointCommand", userId := "u" })], rootId := "r", currentNodeId := "n1" } } }, history := { root := .node none "Initial state" [], path := [], state := ⟨[⟨"a", [⟨1, 1⟩], "#4a9eff"⟩]⟩, selectedChildIndex := 0 }, activeCurveId := some "a" } : StateManager).undoRefusing =
    some { collab := some { enabled := true, connected := true, doc := { curves := [⟨"a", [⟨1, 1⟩], "#4a9eff"⟩], history := some { nodes := [("r", { id := "r", command := none, parentId := none, childIds := ["n1"], descr := "Initial state", userId := "u" }), ("n1", { id := "n1", command := some ⟨"AddPoint", { curveId := some "a", point := some ⟨1, 1⟩ }⟩, parentId := some "r", childIds := [], descr := "AddPointCommand", userId := "u" })], rootId := "r", currentNodeId := "n1" } } }, history := { root := .node none "Initial state" [], path := [], state := ⟨[⟨"a", [⟨1, 1⟩], "#4a9eff"⟩]⟩, selectedChildIndex := 0 }, activeCurveId := some "a" } ∧
    (CollabManager.undo { enabled := true, connected := true, doc := { curves := [⟨"a", [⟨1, 1⟩], "#4a9eff"⟩], history := some { nodes := [("r", { id := "r", command := none, parentId := none, childIds := ["n1"], descr := "Initial state", userId := "u" }), ("n1", { id := "n1", command := some ⟨"AddPoint", { curveId := some "a", point := some ⟨1, 1⟩ }⟩, parentId := some "r", childIds := [], descr := "AddPointCommand", userId := "u" })], rootId := "r", currentNodeId := "n1" } } }).1 ≠
    { enabled := true, connected := true, doc := { curves := [⟨"a", [⟨1, 1⟩], "#4a9eff"⟩], history := some { nodes := [("r", { id := "r", command := none, parentId := none, childIds := ["n1"], descr := "Initial state", userId := "u" }), ("n1", { id := "n1", command := some ⟨"AddPoint", { curveId := some "a", point := some ⟨1, 1⟩ }⟩, parentId := some "r", childIds := [], descr := "AddPointCommand", userId := "u" })], rootId := "r", currentNodeId := "n1" } } } :=
  ⟨rfl, by decide⟩

end Bezier
